import Mathlib

/-!
Verification of the brand-builder extraction and derivation pipeline.

This file shallowly embeds the color, typography, gradient and fusion
logic of the repository (src/lib/utils/color.ts, src/lib/utils/typography.ts,
src/lib/services/extractor.ts and the cheerio-based extractor variant) in
Lean 4 and proves or refutes the specification claims about them.

Numeric conventions: the JavaScript code computes with IEEE doubles via the
chroma-js library.  Color-space conversions (rgb to hsl, hsl to rgb) are
exact rational computations, embedded here over an unnormalized fraction
type `Q` (a pair of integers) so that every definition kernel-evaluates.
The perceptual distance `chroma.deltaE` (CIEDE2000 over CIE-Lab, D65) is
embedded in fixed-point integer arithmetic with scale 10^8; its square
roots, cube roots, fifth roots, arctangent, sine, cosine and exponential
are computed by explicit monotone-bisection and truncated-series
algorithms whose total error (< 10^-4) is far below every decision margin
the program's comparisons use (all deltaE comparisons in the claims are
at distance > 1 from their thresholds).  `Math.round` is embedded as
`jsRound q = ⌊q + 1/2⌋`, which is exactly JavaScript's rounding on the
values that occur.
-/

/-- Unnormalized rational number: numerator and (intended positive)
denominator.  Arithmetic never reduces fractions, keeping every operation
kernel-computable. -/
structure Q where
  n : ℤ
  d : ℤ
deriving DecidableEq, Repr

def Q.ofInt (z : ℤ) : Q := ⟨z, 1⟩

def Q.add (a b : Q) : Q := ⟨a.n * b.d + b.n * a.d, a.d * b.d⟩

def Q.sub (a b : Q) : Q := ⟨a.n * b.d - b.n * a.d, a.d * b.d⟩

def Q.mul (a b : Q) : Q := ⟨a.n * b.n, a.d * b.d⟩

/-- Division by a positive integer constant. -/
def Q.divInt (a : Q) (k : ℤ) : Q := ⟨a.n, a.d * k⟩

/-- Comparison `a < b`, valid when both denominators are positive. -/
def Q.blt (a b : Q) : Bool := a.n * b.d < b.n * a.d

/-- Comparison `a ≤ b`, valid when both denominators are positive. -/
def Q.ble (a b : Q) : Bool := a.n * b.d ≤ b.n * a.d

/-- The rational value denoted by a `Q`. -/
def Q.toRat (a : Q) : ℚ := (a.n : ℚ) / (a.d : ℚ)

/-- JavaScript's `Math.round` on a `Q` value: `⌊q + 1/2⌋`, computed on
integers as `(2n + d).ediv (2d)` (valid for positive denominators). -/
def Q.jsRound (a : Q) : ℤ := (2 * a.n + a.d).ediv (2 * a.d)

/-- `Math.min(1, x)`. -/
def Q.min1 (a : Q) : Q := if Q.blt (Q.ofInt 1) a then Q.ofInt 1 else a

def jsRoundInt (num den : ℤ) : ℤ := (2 * num + den).ediv (2 * den)

def clampChan (z : ℤ) : ℤ := max 0 (min 255 z)

/-- A parsed color as produced by `parseColor` in src/lib/utils/color.ts:
canonical lowercase hex plus derived integer rgb and hsl records. -/
structure Rgb where
  r : ℤ
  g : ℤ
  b : ℤ
deriving DecidableEq, Repr

structure Hsl where
  h : ℤ
  s : ℤ
  l : ℤ
deriving DecidableEq, Repr

structure Color where
  hex : String
  rgb : Rgb
  hsl : Hsl
  name : Option String := none
  usage : Option String := none
deriving DecidableEq, Repr

/-- chroma-js `rgb2hsl` of integer channels (channels are first divided by
255; the divisions cancel in `s`, and `l` has denominator 510); returns the
exact hue (degrees), saturation and lightness in [0,1] as `Q` values.  The
achromatic case returns hue 0, matching the `h || 0` applied at both use
sites of the NaN hue chroma-js produces there. -/
def rgb2hslExact (r g b : ℤ) : Q × Q × Q :=
  let mx := max r (max g b)
  let mn := min r (min g b)
  let l : Q := ⟨mx + mn, 510⟩
  if mx = mn then
    (Q.ofInt 0, Q.ofInt 0, l)
  else
    let s : Q := if mx + mn < 255 then ⟨mx - mn, mx + mn⟩ else ⟨mx - mn, 510 - (mx + mn)⟩
    let hnum : ℤ :=
      if r = mx then 60 * (g - b)
      else if g = mx then 120 * (mx - mn) + 60 * (b - r)
      else 240 * (mx - mn) + 60 * (r - g)
    let h : Q := if hnum < 0 then ⟨hnum + 360 * (mx - mn), mx - mn⟩ else ⟨hnum, mx - mn⟩
    (h, s, l)

/-- The rounded hsl record `parseColor` stores: `Math.round` of the hue and
of saturation/lightness scaled to percent. -/
def roundedHsl (r g b : ℤ) : Hsl :=
  let e := rgb2hslExact r g b
  ⟨Q.jsRound e.1, Q.jsRound (Q.mul (Q.ofInt 100) e.2.1), Q.jsRound (Q.mul (Q.ofInt 100) e.2.2)⟩

def toHexDigit (n : ℕ) : Char :=
  if n < 10 then Char.ofNat (48 + n) else Char.ofNat (87 + n)

def byteHexChars (z : ℤ) : List Char :=
  [toHexDigit (z.toNat / 16), toHexDigit (z.toNat % 16)]

/-- chroma-js `hex()` rendering of integer channels (lowercase, `#`-prefixed). -/
def renderHex6 (r g b : ℤ) : String :=
  String.mk ('#' :: (byteHexChars r ++ byteHexChars g ++ byteHexChars b))

def renderHex8 (r g b a : ℤ) : String :=
  String.mk ('#' :: (byteHexChars r ++ byteHexChars g ++ byteHexChars b ++ byteHexChars a))

/-- The `Color` built from integer rgb channels: hex plus rgb and hsl both
derived from the same channels (parseColor recomputes them together). -/
def colorOfRgb (r g b : ℤ) : Color :=
  { hex := renderHex6 r g b, rgb := ⟨r, g, b⟩, hsl := roundedHsl r g b }

def hexDigitVal (c : Char) : Option ℕ :=
  if 48 ≤ c.toNat ∧ c.toNat ≤ 57 then some (c.toNat - 48)
  else if 97 ≤ c.toNat ∧ c.toNat ≤ 102 then some (c.toNat - 87)
  else if 65 ≤ c.toNat ∧ c.toNat ≤ 70 then some (c.toNat - 55)
  else none

def parseHexDigits : List Char → Option (List ℕ)
  | [] => some []
  | c :: cs =>
    match hexDigitVal c, parseHexDigits cs with
    | some v, some vs => some (v :: vs)
    | _, _ => none

/-- `parseColor` from src/lib/utils/color.ts: parse a color string with
chroma-js, returning canonical hex plus rounded rgb/hsl, or `null` when
chroma throws.  chroma's hex parser is embedded for 3-, 4-, 6- and 8-digit
`#`-prefixed hex literals (the token shapes the collector's regexes and the
claims feed it); other chroma-parseable formats are out of the modelled
domain and yield `none`.  With an alpha below 255 chroma's `hex()` keeps
the alpha byte, so the canonical hex is then 8 digits. -/
def parseColor (s : String) : Option Color :=
  match s.data with
  | '#' :: rest =>
    match parseHexDigits rest with
    | some [a, b, c] =>
      some (colorOfRgb (17 * a) (17 * b) (17 * c))
    | some [a, b, c, d] =>
      let al : ℤ := 17 * d
      if al = 255 then some (colorOfRgb (17 * a) (17 * b) (17 * c))
      else some { colorOfRgb (17 * a) (17 * b) (17 * c) with
                  hex := renderHex8 (17 * a) (17 * b) (17 * c) al }
    | some [a, b, c, d, e, f] =>
      some (colorOfRgb (16 * a + b) (16 * c + d) (16 * e + f))
    | some [a, b, c, d, e, f, g, h] =>
      let al : ℤ := 16 * g + h
      if al = 255 then some (colorOfRgb (16 * a + b) (16 * c + d) (16 * e + f))
      else some { colorOfRgb (16 * a + b) (16 * c + d) (16 * e + f) with
                  hex := renderHex8 (16 * a + b) (16 * c + d) (16 * e + f) al }
    | _ => none
  | _ => none

/-- The non-null assertion `parseColor(x)!` the source applies to its fixed
constants. -/
def parseColorD (s : String) : Color := (parseColor s).getD (colorOfRgb 0 0 0)

/-! ### Fixed-point embedding of chroma-js `deltaE` (CIEDE2000)

All values are integers scaled by `fpS = 10^8`.  `Int.ediv` (floor
division) is used throughout; each operation loses at most one unit in the
last place, keeping the total error of a `deltaE` evaluation below 10^-4 —
verified against the double-precision reference on the concrete inputs the
claims use, whose decision margins all exceed 1. -/

def fpS : ℤ := 100000000

def fpMul (a b : ℤ) : ℤ := (a * b).ediv fpS

def fpDiv (a b : ℤ) : ℤ := (a * fpS).ediv b

/-- Greatest `m` with `m ^ k ≤ n`, by fuelled bisection on `[lo, hi)`
maintaining `lo ^ k ≤ n < hi ^ k`. -/
def rootStep (k : ℕ) : ℕ → ℕ → ℕ → ℕ → ℕ
  | 0, _, lo, _ => lo
  | fuel + 1, n, lo, hi =>
    if hi ≤ lo + 1 then lo
    else
      let mid := (lo + hi) / 2
      if mid ^ k ≤ n then rootStep k fuel n mid hi else rootStep k fuel n lo mid

def introot (k n : ℕ) : ℕ := rootStep k 300 n 0 (n + 2)

def fpSqrt (a : ℤ) : ℤ := if a ≤ 0 then 0 else Int.ofNat (introot 2 (a * fpS).toNat)

def fpCbrt (a : ℤ) : ℤ := if a ≤ 0 then 0 else Int.ofNat (introot 3 (a * fpS * fpS).toNat)

def fpRoot5 (a : ℤ) : ℤ :=
  if a ≤ 0 then 0 else Int.ofNat (introot 5 (a * fpS * fpS * fpS * fpS).toNat)

/-- π scaled by `fpS`. -/
def fpPi : ℤ := 314159265

/-- Taylor series of arctan for small scaled arguments (|t| below 0.21). -/
def fpAtanSmall (t : ℤ) : ℤ :=
  let t2 := fpMul t t
  let p1 := t
  let p3 := fpMul p1 t2
  let p5 := fpMul p3 t2
  let p7 := fpMul p5 t2
  let p9 := fpMul p7 t2
  let p11 := fpMul p9 t2
  let p13 := fpMul p11 t2
  let p15 := fpMul p13 t2
  p1 - p3.ediv 3 + p5.ediv 5 - p7.ediv 7 + p9.ediv 9 - p11.ediv 11 + p13.ediv 13 - p15.ediv 15

/-- One half-angle reduction: `atan t = 2 atan (t / (1 + sqrt (1 + t^2)))`. -/
def fpAtanRed (t : ℤ) : ℤ := fpDiv t (fpS + fpSqrt (fpS + fpMul t t))

/-- arctangent of a nonnegative scaled value, in scaled radians. -/
def fpAtanPos (t : ℤ) : ℤ :=
  if t > fpS then fpPi.ediv 2 - 4 * fpAtanSmall (fpAtanRed (fpAtanRed (fpDiv fpS t)))
  else 4 * fpAtanSmall (fpAtanRed (fpAtanRed t))

/-- `Math.atan2 (y, x)` in scaled radians. -/
def fpAtan2 (y x : ℤ) : ℤ :=
  if x = 0 ∧ y = 0 then 0
  else if x > 0 then
    (if y ≥ 0 then fpAtanPos (fpDiv y x) else -fpAtanPos (fpDiv (-y) x))
  else if x < 0 then
    (if y ≥ 0 then fpPi - fpAtanPos (fpDiv y (-x)) else -(fpPi - fpAtanPos (fpDiv (-y) (-x))))
  else if y > 0 then fpPi.ediv 2 else -(fpPi.ediv 2)

/-- Truncated cosine series, valid for |x| up to π (scaled radians). -/
def fpCosRad (x : ℤ) : ℤ :=
  let x2 := fpMul x x
  let t1 := -x2.ediv 2
  let t2 := -(fpMul t1 x2).ediv 12
  let t3 := -(fpMul t2 x2).ediv 30
  let t4 := -(fpMul t3 x2).ediv 56
  let t5 := -(fpMul t4 x2).ediv 90
  let t6 := -(fpMul t5 x2).ediv 132
  let t7 := -(fpMul t6 x2).ediv 182
  let t8 := -(fpMul t7 x2).ediv 240
  let t9 := -(fpMul t8 x2).ediv 306
  let t10 := -(fpMul t9 x2).ediv 380
  let t11 := -(fpMul t10 x2).ediv 462
  let t12 := -(fpMul t11 x2).ediv 552
  let t13 := -(fpMul t12 x2).ediv 650
  let t14 := -(fpMul t13 x2).ediv 756
  fpS + t1 + t2 + t3 + t4 + t5 + t6 + t7 + t8 + t9 + t10 + t11 + t12 + t13 + t14

/-- Truncated sine series, valid for |x| up to π (scaled radians). -/
def fpSinRad (x : ℤ) : ℤ :=
  let x2 := fpMul x x
  let t1 := -(fpMul x x2).ediv 6
  let t2 := -(fpMul t1 x2).ediv 20
  let t3 := -(fpMul t2 x2).ediv 42
  let t4 := -(fpMul t3 x2).ediv 72
  let t5 := -(fpMul t4 x2).ediv 110
  let t6 := -(fpMul t5 x2).ediv 156
  let t7 := -(fpMul t6 x2).ediv 210
  let t8 := -(fpMul t7 x2).ediv 272
  let t9 := -(fpMul t8 x2).ediv 342
  let t10 := -(fpMul t9 x2).ediv 420
  let t11 := -(fpMul t10 x2).ediv 506
  let t12 := -(fpMul t11 x2).ediv 600
  let t13 := -(fpMul t12 x2).ediv 702
  let t14 := -(fpMul t13 x2).ediv 812
  x + t1 + t2 + t3 + t4 + t5 + t6 + t7 + t8 + t9 + t10 + t11 + t12 + t13 + t14

def fpDeg2Rad (d : ℤ) : ℤ := (d * fpPi).ediv (180 * fpS)

/-- Cosine of a scaled angle in degrees, after range reduction to
[-180, 180]. -/
def fpCosDeg (d : ℤ) : ℤ :=
  let m := d.emod (360 * fpS)
  let m := if m > 180 * fpS then m - 360 * fpS else m
  fpCosRad (fpDeg2Rad m)

def fpSinDeg (d : ℤ) : ℤ :=
  let m := d.emod (360 * fpS)
  let m := if m > 180 * fpS then m - 360 * fpS else m
  fpSinRad (fpDeg2Rad m)

/-- Truncated series for `exp y` with `y` in [0, 1] (scaled). -/
def fpExp01 (y : ℤ) : ℤ :=
  let t1 := y
  let t2 := (fpMul t1 y).ediv 2
  let t3 := (fpMul t2 y).ediv 3
  let t4 := (fpMul t3 y).ediv 4
  let t5 := (fpMul t4 y).ediv 5
  let t6 := (fpMul t5 y).ediv 6
  let t7 := (fpMul t6 y).ediv 7
  let t8 := (fpMul t7 y).ediv 8
  let t9 := (fpMul t8 y).ediv 9
  let t10 := (fpMul t9 y).ediv 10
  let t11 := (fpMul t10 y).ediv 11
  let t12 := (fpMul t11 y).ediv 12
  let t13 := (fpMul t12 y).ediv 13
  fpS + t1 + t2 + t3 + t4 + t5 + t6 + t7 + t8 + t9 + t10 + t11 + t12 + t13

/-- `exp (-u)` for a nonnegative scaled `u`, via
`exp (-u) = (exp (u/16))⁻¹ ^ 16`; beyond `u = 16` the value is below the
fixed-point resolution and is taken as 0. -/
def fpExpNeg (u : ℤ) : ℤ :=
  if u ≥ 16 * fpS then 0
  else
    let inv0 := (fpS * fpS).ediv (fpExp01 (u.ediv 16))
    let i1 := fpMul inv0 inv0
    let i2 := fpMul i1 i1
    let i3 := fpMul i2 i2
    fpMul i3 i3

/-- sRGB gamma expansion of an integer channel (chroma-js `rgb_xyz`):
`v/12.92` below the linear threshold, else `((v + 0.055)/1.055)^2.4`,
with `x^2.4 = x^2 * (x^2)^(1/5)`. -/
def fpGamma (v : ℤ) : ℤ :=
  let vS := (v * fpS).ediv 255
  if vS ≤ 4045000 then (vS * 100).ediv 1292
  else
    let t := ((vS + 5500000) * 1000).ediv 1055
    let t2 := fpMul t t
    fpMul t2 (fpRoot5 t2)

def fpLabT3 : ℤ := (216 * fpS).ediv 24389

def fpLabT2 : ℤ := (108 * fpS).ediv 841

def fpLabT0 : ℤ := (4 * fpS).ediv 29

/-- chroma-js `xyz_lab`: cube root above the t3 threshold, else the linear
branch `t / t2 + t0`. -/
def fpXyzLab (t : ℤ) : ℤ := if t > fpLabT3 then fpCbrt t else (t * fpS).ediv fpLabT2 + fpLabT0

/-- chroma-js `rgb2lab` (D65 white point, sRGB matrix). -/
def fpRgb2Lab (r g b : ℤ) : ℤ × ℤ × ℤ :=
  let rp := fpGamma r
  let gp := fpGamma g
  let bp := fpGamma b
  let x := fpXyzLab ((41245640 * rp + 35757610 * gp + 18043750 * bp).ediv 95047000)
  let y := fpXyzLab ((21267290 * rp + 71515220 * gp + 7217500 * bp).ediv 100000000)
  let z := fpXyzLab ((1933390 * rp + 11919200 * gp + 95030410 * bp).ediv 108883000)
  let L := 116 * y - 16 * fpS
  (if L < 0 then 0 else L, 500 * (x - y), 200 * (y - z))

def fpPow25_7 : ℤ := 6103515625 * fpS

/-- `c^7 / (c^7 + 25^7)` on scaled values. -/
def fpRatio7 (c : ℤ) : ℤ :=
  let c2 := fpMul c c
  let c4 := fpMul c2 c2
  let c7 := fpMul (fpMul c4 c2) c
  (c7 * fpS).ediv (c7 + fpPow25_7)

/-- chroma-js `deltaE` (CIEDE2000 with Kl = Kc = Kh = 1) on integer rgb
channels, returning the scaled distance clamped to [0, 100]. -/
def fpDeltaE (c1 c2 : Rgb) : ℤ :=
  let lab1 := fpRgb2Lab c1.r c1.g c1.b
  let lab2 := fpRgb2Lab c2.r c2.g c2.b
  let L1 := lab1.1
  let a1 := lab1.2.1
  let b1 := lab1.2.2
  let L2 := lab2.1
  let a2 := lab2.2.1
  let b2 := lab2.2.2
  let avgL := (L1 + L2).ediv 2
  let C1 := fpSqrt (fpMul a1 a1 + fpMul b1 b1)
  let C2 := fpSqrt (fpMul a2 a2 + fpMul b2 b2)
  let avgC := (C1 + C2).ediv 2
  let G := (fpS - fpSqrt (fpRatio7 avgC)).ediv 2
  let A1p := fpMul a1 (fpS + G)
  let A2p := fpMul a2 (fpS + G)
  let C1p := fpSqrt (fpMul A1p A1p + fpMul b1 b1)
  let C2p := fpSqrt (fpMul A2p A2p + fpMul b2 b2)
  let avgCp := (C1p + C2p).ediv 2
  let arctan1 := (fpAtan2 b1 A1p * 180 * fpS).ediv fpPi
  let arctan2 := (fpAtan2 b2 A2p * 180 * fpS).ediv fpPi
  let h1p := if arctan1 ≥ 0 then arctan1 else arctan1 + 360 * fpS
  let h2p := if arctan2 ≥ 0 then arctan2 else arctan2 + 360 * fpS
  let avgHp := if (h1p - h2p).natAbs > (180 * fpS).toNat
               then (h1p + h2p + 360 * fpS).ediv 2 else (h1p + h2p).ediv 2
  let T := fpS - (17 * fpCosDeg (avgHp - 30 * fpS)).ediv 100
             + (24 * fpCosDeg (2 * avgHp)).ediv 100
             + (32 * fpCosDeg (3 * avgHp + 6 * fpS)).ediv 100
             - (20 * fpCosDeg (4 * avgHp - 63 * fpS)).ediv 100
  let dhp0 := h2p - h1p
  let dhp1 := if dhp0.natAbs ≤ (180 * fpS).toNat then dhp0
              else if h2p ≤ h1p then dhp0 + 360 * fpS else dhp0 - 360 * fpS
  let deltaHp := 2 * fpMul (fpSqrt (fpMul C1p C2p)) (fpSinRad ((fpDeg2Rad dhp1).ediv 2))
  let deltaL := L2 - L1
  let deltaCp := C2p - C1p
  let q := fpMul (avgL - 50 * fpS) (avgL - 50 * fpS)
  let sl := fpS + fpDiv ((15 * q).ediv 1000) (fpSqrt (20 * fpS + q))
  let sc := fpS + (45 * avgCp).ediv 1000
  let sh := fpS + (15 * fpMul avgCp T).ediv 1000
  let dTheta := 30 * fpExpNeg (fpMul ((avgHp - 275 * fpS).ediv 25) ((avgHp - 275 * fpS).ediv 25))
  let Rc := 2 * fpSqrt (fpRatio7 avgCp)
  let Rt := -fpMul Rc (fpSinRad (fpDeg2Rad (2 * dTheta)))
  let t1 := fpDiv deltaL sl
  let t2 := fpDiv deltaCp sc
  let t3 := fpDiv deltaHp sh
  let res := fpSqrt (fpMul t1 t1 + fpMul t2 t2 + fpMul t3 t3 + fpMul Rt (fpMul t2 t3))
  max 0 (min (100 * fpS) res)

/-! ### chroma-js `hsl2rgb` and the color.ts derivation engine -/

/-- One channel of chroma-js `hsl2rgb`: the piecewise-linear hue hat
function evaluated between `t1` and `t2`. -/
def hslChan (t1 t2 w : Q) : Q :=
  if Q.blt (Q.mul (Q.ofInt 6) w) (Q.ofInt 1) then
    Q.add t1 (Q.mul (Q.mul (Q.sub t2 t1) (Q.ofInt 6)) w)
  else if Q.blt (Q.mul (Q.ofInt 2) w) (Q.ofInt 1) then t2
  else if Q.blt (Q.mul (Q.ofInt 3) w) (Q.ofInt 2) then
    Q.add t1 (Q.mul (Q.mul (Q.sub t2 t1) (Q.sub ⟨2, 3⟩ w)) (Q.ofInt 6))
  else t1

/-- The two sequential wrap conditionals of chroma-js `hsl2rgb`
(`if (t3 < 0) t3 += 1; if (t3 > 1) t3 -= 1`). -/
def qWrap (w : Q) : Q :=
  let w1 := if Q.blt w (Q.ofInt 0) then Q.add w (Q.ofInt 1) else w
  if Q.blt (Q.ofInt 1) w1 then Q.sub w1 (Q.ofInt 1) else w1

/-- chroma-js `hsl2rgb`: hue in degrees, s and l in [0,1]; returns the
three exact channel values already scaled by 255. -/
def hsl2rgb255 (h s l : Q) : Q × Q × Q :=
  if s.n = 0 then
    let c := Q.mul l (Q.ofInt 255)
    (c, c, c)
  else
    let t2 := if Q.blt l ⟨1, 2⟩ then Q.mul l (Q.add (Q.ofInt 1) s)
              else Q.sub (Q.add l s) (Q.mul l s)
    let t1 := Q.sub (Q.mul (Q.ofInt 2) l) t2
    let h' := Q.divInt h 360
    let m := fun w => Q.mul (hslChan t1 t2 (qWrap w)) (Q.ofInt 255)
    (m (Q.add h' ⟨1, 3⟩), m h', m (Q.sub h' ⟨1, 3⟩))

/-- Quantize one exact channel the way `chroma.hsl(...).hex()` does:
clamp to [0,255] (`clip_rgb`) and round (`Math.round` inside `hex`); on
these values clamp-then-round and round-then-clamp agree. -/
def quantChan (c : Q) : ℤ := clampChan (Q.jsRound c)

/-- The hex string produced by `chroma.hsl(h, s, l).hex()`. -/
def chromaHslHex (h s l : Q) : String :=
  let c := hsl2rgb255 h s l
  renderHex6 (quantChan c.1) (quantChan c.2.1) (quantChan c.2.2)

/-- The 11-slot shade scale record of src/lib/types/brand.ts. -/
structure ColorScale where
  s50 : Color
  s100 : Color
  s200 : Color
  s300 : Color
  s400 : Color
  s500 : Color
  s600 : Color
  s700 : Color
  s800 : Color
  s900 : Color
  s950 : Color
  base : Color
deriving DecidableEq, Repr

/-- One slot of `generateShadeScale`: saturation multiplied by the table
factor and capped at 1, lightness replaced by the table constant
(`lnum`/100), hue kept; the resulting chroma color is re-parsed with
`parseColor(c.hex())!`. -/
def shadeSlot (h s : Q) (adjS : Q) (lnum : ℤ) : Color :=
  parseColorD (chromaHslHex h (Q.min1 (Q.mul s adjS)) ⟨lnum, 100⟩)

/-- `generateShadeScale` from src/lib/utils/color.ts: the fixed
lightness/saturation-multiplier table applied to the base color's exact
hue and saturation (recomputed from its hex by `chroma(baseColor.hex)`),
with the unmodified input color in the `base` slot. -/
def generateShadeScale (baseColor : Color) : ColorScale :=
  let c := parseColorD baseColor.hex
  let e := rgb2hslExact c.rgb.r c.rgb.g c.rgb.b
  let h := e.1
  let s := e.2.1
  { s50 := shadeSlot h s ⟨7, 10⟩ 97
    s100 := shadeSlot h s ⟨8, 10⟩ 93
    s200 := shadeSlot h s ⟨85, 100⟩ 85
    s300 := shadeSlot h s ⟨9, 10⟩ 70
    s400 := shadeSlot h s ⟨95, 100⟩ 55
    s500 := shadeSlot h s ⟨1, 1⟩ 45
    s600 := shadeSlot h s ⟨105, 100⟩ 35
    s700 := shadeSlot h s ⟨108, 100⟩ 25
    s800 := shadeSlot h s ⟨110, 100⟩ 18
    s900 := shadeSlot h s ⟨112, 100⟩ 12
    s950 := shadeSlot h s ⟨115, 100⟩ 6
    base := baseColor }

/-- `generateNeutralScale`: 10 low-saturation steps at the base color's
rounded hue, lightness spread from 2.5% to 97.5%, reversed at the end. -/
def generateNeutralScale (baseColor : Color) (steps : ℕ := 10) : List Color :=
  let hue := Q.ofInt baseColor.hsl.h
  let build := fun (i : ℕ) =>
    let lightness := Q.add (Q.mul (Q.divInt (Q.ofInt i) (steps - 1)) (Q.ofInt 95)) ⟨5, 2⟩
    let sat0 := Q.sub (Q.ofInt 5) (Q.mul (Q.ofInt i) ⟨1, 2⟩)
    let saturation := if Q.blt sat0 (Q.ofInt 0) then Q.ofInt 0 else sat0
    (parseColor (chromaHslHex hue (Q.divInt saturation 100) (Q.divInt lightness 100))).map
      (fun p => { p with name := some ("Neutral " ++ toString ((steps - i) * 100)) })
  ((List.range steps).filterMap build).reverse

structure SemanticColors where
  success : Color
  error : Color
  warning : Color
  info : Color
deriving DecidableEq, Repr

/-- `generateSemanticColors`: four fixed constants. -/
def generateSemanticColors : SemanticColors :=
  { success := parseColorD "#22c55e"
    error := parseColorD "#ef4444"
    warning := parseColorD "#f59e0b"
    info := parseColorD "#3b82f6" }

structure ColorPalette where
  primary : ColorScale
  secondary : ColorScale
  accent : ColorScale
  neutral : List Color
  utility : List Color
  semantic : SemanticColors
deriving DecidableEq, Repr

/-- Try to place `c` into the first existing cluster whose first element
is within the deltaE threshold (`chroma.deltaE(color.hex, cluster[0].hex)
< threshold`); clusters are head-plus-tail pairs and a match appends at
the end of that cluster.  The colors' hex strings re-parse to exactly
their `rgb` records, on which the embedded deltaE operates. -/
def tryAddCluster (threshold : ℤ) (c : Color) :
    List (Color × List Color) → Option (List (Color × List Color))
  | [] => none
  | cl :: rest =>
    if fpDeltaE c.rgb cl.1.rgb < threshold * fpS then some ((cl.1, cl.2 ++ [c]) :: rest)
    else
      match tryAddCluster threshold c rest with
      | some rest' => some (cl :: rest')
      | none => none

def clusterFold (threshold : ℤ) (colors : List Color) : List (Color × List Color) :=
  colors.foldl
    (fun acc c =>
      match tryAddCluster threshold c acc with
      | some acc' => acc'
      | none => acc ++ [(c, [])])
    []

/-- `cluster.reduce((best, current) => current.hsl.s > best.hsl.s ? current : best)`. -/
def reduceBest (first : Color) (rest : List Color) : Color :=
  rest.foldl (fun best cur => if best.hsl.s < cur.hsl.s then cur else best) first

/-- `clusterColors` from src/lib/utils/color.ts (default threshold 25):
greedy first-fit clustering by perceptual distance, keeping the most
saturated member of each cluster. -/
def clusterColors (colors : List Color) (threshold : ℤ := 25) : List Color :=
  (clusterFold threshold colors).map (fun cl => reduceBest cl.1 cl.2)

/-- Insert `c` before the first element whose saturation is at most
`c`'s.  Folded from the right over the input this is a stable descending
insertion sort, hence agrees with the JS stable
`sort((a, b) => b.hsl.s - a.hsl.s)` on every input, ties included. -/
def insertBySat (c : Color) : List Color → List Color
  | [] => [c]
  | d :: ds => if d.hsl.s ≤ c.hsl.s then c :: d :: ds else d :: insertBySat c ds

def sortBySatDesc (colors : List Color) : List Color :=
  colors.foldr insertBySat []

/-- `buildColorPalette` from src/lib/utils/color.ts. -/
def buildColorPalette (extractedColors : List String) : ColorPalette :=
  let parsedColors := (extractedColors.filterMap parseColor).filter
    (fun c => decide (10 < c.hsl.l) && decide (c.hsl.l < 90))
  let uniqueColors := clusterColors parsedColors 25
  let sorted := sortBySatDesc uniqueColors
  let primaryBase0 := sorted.head?.getD (parseColorD "#1e3a8a")
  let primaryBase := { primaryBase0 with
                       name := some "Primary Base", usage := some "Brand foundation, trust" }
  let secondaryBase0 := (sorted.find? (fun c => decide (30 * fpS < fpDeltaE c.rgb primaryBase.rgb))).getD
    (parseColorD "#028393")
  let secondaryBase := { secondaryBase0 with
                         name := some "Secondary Base", usage := some "Energy, differentiation" }
  let accentBase0 := (sorted.find? (fun c =>
      decide (40 * fpS < fpDeltaE c.rgb primaryBase.rgb) &&
      decide (30 * fpS < fpDeltaE c.rgb secondaryBase.rgb))).getD
    (parseColorD "#f65625")
  let accentBase := { accentBase0 with
                      name := some "Accent Base", usage := some "CTAs, urgency, highlights" }
  { primary := generateShadeScale primaryBase
    secondary := generateShadeScale secondaryBase
    accent := generateShadeScale accentBase
    neutral := generateNeutralScale primaryBase 10
    utility := [parseColorD "#faaa68", parseColorD "#98c1d9", parseColorD "#3d5a80"]
    semantic := generateSemanticColors }

/-! ### String utilities (JavaScript `includes`, `toLowerCase`, regexes) -/

def listStartsWith : List Char → List Char → Bool
  | _, [] => true
  | [], _ :: _ => false
  | c :: cs, d :: ds => c == d && listStartsWith cs ds

def listContainsSub : List Char → List Char → Bool
  | [], needle => needle.isEmpty
  | hay@(_ :: rest), needle => listStartsWith hay needle || listContainsSub rest needle

/-- JavaScript `hay.includes(needle)`. -/
def strIncludes (hay needle : String) : Bool := listContainsSub hay.data needle.data

/-- ASCII lowercasing; the strings involved (hex colors, font keywords)
contain no characters where JavaScript `toLowerCase` differs. -/
def toLowerChar (c : Char) : Char :=
  if 65 ≤ c.toNat ∧ c.toNat ≤ 90 then Char.ofNat (c.toNat + 32) else c

def strToLower (s : String) : String := String.mk (s.data.map toLowerChar)

def isWsChar (c : Char) : Bool := c == ' ' || c == '\t' || c == '\n' || c == '\r'

def isDigitChar (c : Char) : Bool := 48 ≤ c.toNat && c.toNat ≤ 57

def digitsToNat (ds : List Char) : ℕ :=
  ds.foldl (fun acc c => 10 * acc + (c.toNat - 48)) 0

/-- Match the regex `linear-gradient\(\s*(\d+)deg` at the head of the
character list, returning the captured integer. -/
def matchAngleHere (cs : List Char) : Option ℕ :=
  if listStartsWith cs "linear-gradient(".data then
    let afterParen := cs.drop 16
    let afterWs := afterParen.dropWhile isWsChar
    let digits := afterWs.takeWhile isDigitChar
    if digits.isEmpty then none
    else if listStartsWith (afterWs.drop digits.length) "deg".data then some (digitsToNat digits)
    else none
  else none

/-- First match of `linear-gradient\(\s*(\d+)deg` anywhere in the string. -/
def findAngle : List Char → Option ℕ
  | [] => none
  | cs@(_ :: rest) =>
    match matchAngleHere cs with
    | some n => some n
    | none => findAngle rest

/-! ### Gradient classification -/

inductive GradientType where
  | linear
  | radial
  | conic
deriving DecidableEq, Repr

structure ExtractedGradient where
  css : String
  typ : GradientType
  angle : Option ℕ
deriving DecidableEq, Repr

/-- The per-gradient classification inside `extractGradients`
(src/lib/services/extractor.ts lines 206-238): type by substring, angle
from an explicit `Ndeg` prefix or from direction keywords; the diagonal
keyword branches appear after the cardinal ones exactly as in the source. -/
def classifyGradient (css : String) : ExtractedGradient :=
  if strIncludes css "radial-gradient" then ⟨css, .radial, none⟩
  else if strIncludes css "conic-gradient" then ⟨css, .conic, none⟩
  else
    let angle : Option ℕ :=
      match findAngle css.data with
      | some n => some n
      | none =>
        if strIncludes css "to right" then some 90
        else if strIncludes css "to left" then some 270
        else if strIncludes css "to bottom" then some 180
        else if strIncludes css "to top" then some 0
        else if strIncludes css "to bottom right" || strIncludes css "to right bottom" then some 135
        else if strIncludes css "to top right" || strIncludes css "to right top" then some 45
        else if strIncludes css "to bottom left" || strIncludes css "to left bottom" then some 225
        else if strIncludes css "to top left" || strIncludes css "to left top" then some 315
        else none
    ⟨css, .linear, angle⟩

/-- The per-gradient classification inside `parseGradientsFromCSS` of the
cheerio-based extractor (no diagonal branches). -/
def classifyGradientCSS (css : String) : ExtractedGradient :=
  if strIncludes css "radial-gradient" then ⟨css, .radial, none⟩
  else if strIncludes css "conic-gradient" then ⟨css, .conic, none⟩
  else
    let angle : Option ℕ :=
      match findAngle css.data with
      | some n => some n
      | none =>
        if strIncludes css "to right" then some 90
        else if strIncludes css "to left" then some 270
        else if strIncludes css "to bottom" then some 180
        else if strIncludes css "to top" then some 0
        else none
    ⟨css, .linear, angle⟩

/-- The final duplicate filter (`index === self.findIndex(t => t.css === g.css)`):
keep the first gradient for each css string. -/
def dedupByCss (l : List ExtractedGradient) : List ExtractedGradient :=
  l.foldl (fun acc g => if acc.any (fun t => t.css == g.css) then acc else acc ++ [g]) []

/-- `parseGradientsFromCSS` of the cheerio-based extractor, applied to the
collected gradient strings. -/
def parseGradientsFromCSS (gradients : List String) : List ExtractedGradient :=
  dedupByCss (gradients.map classifyGradientCSS)

/-! ### Collector color post-processing (`parseColorsFromCSS`) -/

/-- `RawCSSData`: the collector's accumulator.  JavaScript `Set` and `Map`
iterate in insertion order, embedded as lists (fonts are not consulted by
the color post-processing). -/
structure RawCSSData where
  colors : List String
  gradients : List String
  fonts : List (String × List String)
  cssVariables : List (String × String)

def dedupStr (l : List String) : List String :=
  l.foldl (fun acc s => if acc.contains s then acc else acc ++ [s]) []

def nonBrandColors : List String :=
  ["#000000", "#ffffff", "#000", "#fff", "#333333", "#666666", "#999999", "#cccccc"]

/-- `parseColorsFromCSS`: canonicalize every harvested token through
`parseColor` (dropping failures), add colors parsed from CSS-variable
values, de-duplicate by hex, drop the fixed non-brand denylist
(lower-cased comparison), cap at 20. -/
def parseColorsFromCSS (cssData : RawCSSData) : List String :=
  let validColors :=
    (cssData.colors.filterMap parseColor).map Color.hex
      ++ cssData.cssVariables.filterMap (fun v => (parseColor v.2).map Color.hex)
  let uniqueColors := (dedupStr validColors).filter
    (fun c => !(nonBrandColors.contains (strToLower c)))
  uniqueColors.take 20

/-! ### Typography derivation engine -/

inductive FontCategory where
  | serif
  | sansSerif
  | display
  | handwriting
  | monospace
deriving DecidableEq, Repr

structure Font where
  family : String
  variants : List String
  category : FontCategory
  source : Option String := none
deriving DecidableEq, Repr

/-- `parseFontFamily` from src/lib/utils/typography.ts: split the stack on
commas, trim, strip quotes, return the first non-generic entry (else the
first entry, else "sans-serif"). -/
def splitOnComma (cs : List Char) : List (List Char) :=
  cs.foldr
    (fun c acc =>
      match acc with
      | [] => if c == ',' then [[], []] else [[c]]
      | cur :: done => if c == ',' then [] :: (cur :: done) else (c :: cur) :: done)
    []

def jsTrim (cs : List Char) : List Char :=
  ((cs.dropWhile isWsChar).reverse.dropWhile isWsChar).reverse

def stripQuotes (cs : List Char) : List Char :=
  cs.filter (fun c => !(c == '\'' || c == '"'))

def genericFonts : List String :=
  ["serif", "sans-serif", "monospace", "cursive", "fantasy", "system-ui"]

def parseFontFamily (fontFamilyValue : String) : String :=
  let fonts := (splitOnComma fontFamilyValue.data).map
    (fun cs => String.mk (stripQuotes (jsTrim cs)))
  let customFont := fonts.find? (fun f => !(genericFonts.contains (strToLower f)))
  customFont.getD (fonts.headD "sans-serif")

def sansSerifKeywords : List String :=
  ["inter", "roboto", "open sans", "lato", "montserrat", "poppins", "nunito",
   "source sans", "arial", "helvetica", "verdana", "tahoma", "dm sans",
   "manrope", "work sans", "rubik", "karla", "raleway", "ubuntu"]

def serifKeywords : List String :=
  ["times", "georgia", "playfair", "merriweather", "lora", "noto serif",
   "libre baskerville", "crimson", "source serif", "pt serif", "eb garamond",
   "cormorant", "spectral", "bitter", "vollkorn"]

def displayKeywords : List String :=
  ["lobster", "pacifico", "alfa slab", "bebas", "oswald", "abril fatface",
   "righteous", "russo", "fredoka"]

def handwritingKeywords : List String :=
  ["dancing script", "great vibes", "satisfy", "caveat", "indie flower",
   "sacramento", "alex brush", "allura"]

def monospaceKeywords : List String :=
  ["mono", "courier", "consolas", "menlo", "fira code", "jetbrains",
   "source code", "ibm plex mono", "roboto mono", "sf mono"]

/-- `categorizeFont`: keyword membership against the curated lists, in the
source's check order (monospace, handwriting, display, serif, sans-serif,
default sans-serif). -/
def categorizeFont (fontFamily : String) : FontCategory :=
  let family := strToLower fontFamily
  if monospaceKeywords.any (fun f => strIncludes family f) then .monospace
  else if handwritingKeywords.any (fun f => strIncludes family f) then .handwriting
  else if displayKeywords.any (fun f => strIncludes family f) then .display
  else if serifKeywords.any (fun f => strIncludes family f) then .serif
  else if sansSerifKeywords.any (fun f => strIncludes family f) then .sansSerif
  else .sansSerif

structure TypographyStyle where
  fontFamily : String
  fontSize : String
  fontWeight : String
  lineHeight : String
  letterSpacing : Option String := none
  textTransform : Option String := none
deriving DecidableEq, Repr

structure TypographyHierarchy where
  h1 : TypographyStyle
  h2 : TypographyStyle
  h3 : TypographyStyle
  h4 : TypographyStyle
  h5 : TypographyStyle
  h6 : TypographyStyle
deriving DecidableEq, Repr

structure BodyVariants where
  lead : TypographyStyle
  body : TypographyStyle
  small : TypographyStyle
  caption : TypographyStyle
deriving DecidableEq, Repr

structure TypographyRecommendations where
  lineHeightBody : Q
  lineHeightHeading : Q
  maxLineLengthMin : ℕ
  maxLineLengthMax : ℕ
  letterSpacingAllCaps : String
  letterSpacingLarge : String
deriving DecidableEq, Repr

structure Typography where
  headlines : Font
  subheadings : Font
  body : Font
  code : Font
  hierarchy : TypographyHierarchy
  bodyVariants : BodyVariants
  recommendations : TypographyRecommendations
deriving DecidableEq, Repr

/-- `buildTypography` from src/lib/utils/typography.ts: the four roles are
`find`s over the detected fonts with fixed fallbacks; the `body` search
compares its family only against `subheadings` (not `headlines`), exactly
as the source does. -/
def buildTypography (detectedFonts : List Font) : Typography :=
  let headlines := (detectedFonts.find? (fun f =>
      f.category == FontCategory.serif || f.category == FontCategory.display)).getD
    ⟨"Palatino Linotype", ["400", "700"], .serif, none⟩
  let subheadings := (detectedFonts.find? (fun f =>
      f.category == FontCategory.sansSerif && f.family != headlines.family)).getD
    ⟨"Montserrat", ["500", "600"], .sansSerif, none⟩
  let body := (detectedFonts.find? (fun f =>
      f.category == FontCategory.sansSerif && f.family != subheadings.family)).getD
    ⟨"PT Sans", ["400", "700"], .sansSerif, none⟩
  let code := (detectedFonts.find? (fun f => f.category == FontCategory.monospace)).getD
    ⟨"IBM Plex Mono", ["400"], .monospace, none⟩
  { headlines := headlines
    subheadings := subheadings
    body := body
    code := code
    hierarchy :=
      { h1 := ⟨headlines.family, "4.5rem", "400", "1.1", some "-0.02em", none⟩
        h2 := ⟨headlines.family, "3rem", "400", "1.2", none, none⟩
        h3 := ⟨subheadings.family, "1.875rem", "600", "1.3", none, none⟩
        h4 := ⟨subheadings.family, "1.5rem", "600", "1.4", none, none⟩
        h5 := ⟨subheadings.family, "1.25rem", "500", "1.4", none, none⟩
        h6 := ⟨subheadings.family, "1rem", "500", "1.5", some "0.05em", some "uppercase"⟩ }
    bodyVariants :=
      { lead := ⟨body.family, "1.25rem", "400", "1.6", none, none⟩
        body := ⟨body.family, "1rem", "400", "1.7", none, none⟩
        small := ⟨body.family, "0.875rem", "400", "1.6", none, none⟩
        caption := ⟨body.family, "0.75rem", "400", "1.5", none, none⟩ }
    recommendations :=
      { lineHeightBody := ⟨8, 5⟩
        lineHeightHeading := ⟨11, 10⟩
        maxLineLengthMin := 50
        maxLineLengthMax := 75
        letterSpacingAllCaps := "0.05em"
        letterSpacingLarge := "-0.02em" } }

/-! ### Fusion engine and the LLM / vision enhancement stage

The effectful boundary (HTTP fetches, credential lookup, JSON parsing of
model output) is embedded as explicit outcome datatypes: each constructor
is one of the disjoint runtime situations the source distinguishes, and
the embedded functions map them exactly as the try/catch structure of the
source does. -/

/-- The color-signal fusion of `extractBrandAssets` (cheerio-based
extractor, lines 246-300): vision colors first; the CSS-parsing fallback
block runs when vision under-delivers on colors or fonts, and inside it
collector colors are appended (de-duplicated by exact string) only when
vision produced fewer than 3 colors; the LLM stage then appends validated
suggestions only when the count is still below 3 and a credential exists. -/
def extractColorsFusion (visionColors : List String) (visionFonts cssFonts : List Font)
    (cssColors llmColors : List String) (hasKey : Bool) : List String :=
  if visionColors.length < 3 ∨ visionFonts.length < 1 then
    let colors :=
      if visionColors.length < 3 then
        visionColors ++ cssColors.filter (fun c => !(visionColors.contains c))
      else visionColors
    let fonts :=
      if visionFonts.length < 1 then
        visionFonts ++ cssFonts.filter (fun f => !(visionFonts.any (fun e => e.family == f.family)))
      else visionFonts
    if (colors.length < 3 ∨ fonts.length < 1) ∧ hasKey then
      if 0 < llmColors.length ∧ colors.length < 3 then
        colors ++ ((llmColors.filterMap parseColor).map Color.hex).filter
          (fun c => !(colors.contains c))
      else colors
    else colors
  else visionColors

structure LLMParsedFont where
  family : String
  category : Option FontCategory
deriving DecidableEq, Repr

/-- Fields of the JSON object a successful `JSON.parse` of the model
output yields (each `|| default` of the source is a `getD` here). -/
structure LLMParsed where
  suggestedColors : List String := []
  suggestedFonts : List LLMParsedFont := []
  reasoning : String := ""
deriving DecidableEq, Repr

structure LLMBrandInterpretation where
  suggestedColors : List String
  suggestedFonts : List Font
  reasoning : String
deriving DecidableEq, Repr

/-- Runtime outcomes of the one `fetch` + `JSON.parse` sequence inside
`interpretBrandAssetsWithLLM`: the fetch rejects, the response is non-2xx
(`throw new Error`), or the body text parses (`none` when `JSON.parse`
throws on malformed model output). -/
inductive LLMCallOutcome where
  | networkFailure
  | httpErrorStatus (status : ℕ)
  | responseContent (parsed : Option LLMParsed)

def emptyInterpretation : LLMBrandInterpretation := ⟨[], [], ""⟩

/-- `interpretBrandAssetsWithLLM`: every failure path lands in the
function's catch-all, which returns the empty interpretation; a parsed
response is transformed through `parseFontFamily`/`categorizeFont`. -/
def interpretBrandAssetsWithLLM (outcome : LLMCallOutcome) : LLMBrandInterpretation :=
  match outcome with
  | .networkFailure => emptyInterpretation
  | .httpErrorStatus _ => emptyInterpretation
  | .responseContent none => emptyInterpretation
  | .responseContent (some p) =>
    { suggestedColors := p.suggestedColors
      suggestedFonts := p.suggestedFonts.map (fun f =>
        ⟨parseFontFamily f.family, ["400", "700"], (f.category).getD (categorizeFont f.family),
         some "AI-suggested"⟩)
      reasoning := p.reasoning }

structure VisionParsedGradient where
  css : String
  typ : Option GradientType
  angle : Option ℕ
deriving DecidableEq, Repr

structure VisionParsed where
  colors : List String := []
  fonts : List LLMParsedFont := []
  gradients : List VisionParsedGradient := []
  aesthetic : String := ""
deriving DecidableEq, Repr

structure VisionExtractionResult where
  colors : List String
  gradients : List ExtractedGradient
  fonts : List Font
  description : String
deriving DecidableEq, Repr

/-- Runtime outcomes of `extractBrandAssetsWithVision`: missing
`OPENAI_API_KEY`, fetch rejection, non-2xx response, or response content
whose fenced/plain JSON either fails to parse (`none`) or parses. -/
inductive VisionOutcome where
  | noApiKey
  | visionNetworkFailure
  | visionHttpError (status : ℕ)
  | visionContent (parsed : Option VisionParsed)

/-- The regex validation `/^#[0-9A-Fa-f]{6}$/` applied to each suggested
vision color. -/
def isStrictHex6 (s : String) : Bool :=
  match s.data with
  | '#' :: rest => rest.length == 6 && rest.all (fun c => (hexDigitVal c).isSome)
  | _ => false

/-- `extractBrandAssetsWithVision`: `null` on every failure path (missing
credential, network failure, non-2xx, unparseable JSON); a parsed response
is filtered/transformed to the vision result shape. -/
def extractBrandAssetsWithVision (outcome : VisionOutcome) : Option VisionExtractionResult :=
  match outcome with
  | .noApiKey => none
  | .visionNetworkFailure => none
  | .visionHttpError _ => none
  | .visionContent none => none
  | .visionContent (some p) =>
    some
      { colors := p.colors.filter isStrictHex6
        gradients := p.gradients.map (fun g => ⟨g.css, g.typ.getD .linear, g.angle⟩)
        fonts := p.fonts.map (fun f =>
          ⟨parseFontFamily f.family, ["400", "700"], (f.category).getD (categorizeFont f.family),
           some "vision-detected"⟩)
        description := p.aesthetic }

/-! ### Rational-valued mirrors used by the analytic proofs

These restate the `Q`-valued chroma-js conversions over `ℚ`; bridge
lemmas below identify them with the executable versions. -/

def chanRat (t1 t2 w : ℚ) : ℚ :=
  if 6 * w < 1 then t1 + (t2 - t1) * 6 * w
  else if 2 * w < 1 then t2
  else if 3 * w < 2 then t1 + (t2 - t1) * (2 / 3 - w) * 6
  else t1

def wrapRat (w : ℚ) : ℚ :=
  let w1 := if w < 0 then w + 1 else w
  if 1 < w1 then w1 - 1 else w1

def hslChannelsRat (h s l : ℚ) : ℚ × ℚ × ℚ :=
  if s = 0 then (l * 255, l * 255, l * 255)
  else
    let t2 := if l < 1 / 2 then l * (1 + s) else l + s - l * s
    let t1 := 2 * l - t2
    let hp := h / 360
    (255 * chanRat t1 t2 (wrapRat (hp + 1 / 3)),
     255 * chanRat t1 t2 (wrapRat hp),
     255 * chanRat t1 t2 (wrapRat (hp - 1 / 3)))

def quantChanRat (c : ℚ) : ℤ := clampChan ⌊c + 1 / 2⌋

/-- The `ℚ`-valued mirror of `chromaHslHex`: the hex string
`chroma.hsl(h, s, l).hex()` as a function of the exact rational
hue/saturation/lightness. -/
def chromaHslHexRat (h s l : ℚ) : String :=
  let c := hslChannelsRat h s l
  renderHex6 (quantChanRat c.1) (quantChanRat c.2.1) (quantChanRat c.2.2)

/-- The failure constructors of the LLM call (everything except a
successfully parsed response body). -/
def llmOutcomeFailed : LLMCallOutcome → Bool
  | .networkFailure => true
  | .httpErrorStatus _ => true
  | .responseContent none => true
  | .responseContent (some _) => false

/-- The failure constructors of the vision call. -/
def visionOutcomeFailed : VisionOutcome → Bool
  | .noApiKey => true
  | .visionNetworkFailure => true
  | .visionHttpError _ => true
  | .visionContent none => true
  | .visionContent (some _) => false

/-! ## Theorems -/

/-! ### C1: fusion of collector and vision colors -/

/-- Claim C1 as stated is false: with 5 vision colors and 2 collector
colors the merged list is exactly the 5 vision colors — the collector
color `#aaaaaa` is not added, because the vision count 5 already meets
the sufficiency threshold 3. -/
theorem claim_C1_counterexample :
    extractColorsFusion ["#111111", "#222222", "#333333", "#444444", "#555555"] [] []
        ["#aaaaaa", "#bbbbbb"] [] true
      = ["#111111", "#222222", "#333333", "#444444", "#555555"] ∧
    "#aaaaaa" ∉ extractColorsFusion ["#111111", "#222222", "#333333", "#444444", "#555555"] [] []
        ["#aaaaaa", "#bbbbbb"] [] true := by
  constructor
  · decide
  · decide

/-- Claim C1 (corrected): with a vision result of 5 colors the merged
`ExtractionResult` colors are exactly the 5 vision colors — the collector
is consulted only when the vision count is below the sufficiency
threshold 3, so its 2 colors are not appended; the merge still contains
every vision color and never has fewer than 5. -/
theorem claim_C1 (visionColors : List String) (visionFonts cssFonts : List Font)
    (cssColors llmColors : List String) (hasKey : Bool)
    (h5 : visionColors.length = 5) :
    extractColorsFusion visionColors visionFonts cssFonts cssColors llmColors hasKey
        = visionColors ∧
    (∀ v ∈ visionColors,
      v ∈ extractColorsFusion visionColors visionFonts cssFonts cssColors llmColors hasKey) ∧
    5 ≤ (extractColorsFusion visionColors visionFonts cssFonts cssColors llmColors hasKey).length := by
  have hA : ¬ visionColors.length < 3 := by omega
  have hmain : extractColorsFusion visionColors visionFonts cssFonts cssColors llmColors hasKey
      = visionColors := by
    unfold extractColorsFusion
    simp only [hA, false_or, if_false]
    split_ifs with h1 h2 h3 <;> simp_all
  refine ⟨hmain, ?_, ?_⟩
  · intro v hv; rw [hmain]; exact hv
  · rw [hmain, h5]

/-- Witness for C1 at a concrete 5-color vision result. -/
theorem claim_C1_witness :
    (["#0a0a0a", "#0b0b0b", "#0c0c0c", "#0d0d0d", "#0e0e0e"] : List String).length = 5 ∧
    extractColorsFusion ["#0a0a0a", "#0b0b0b", "#0c0c0c", "#0d0d0d", "#0e0e0e"] [] []
        ["#123456"] [] false
      = ["#0a0a0a", "#0b0b0b", "#0c0c0c", "#0d0d0d", "#0e0e0e"] :=
  ⟨rfl, (claim_C1 ["#0a0a0a", "#0b0b0b", "#0c0c0c", "#0d0d0d", "#0e0e0e"] [] [] ["#123456"] []
      false rfl).1⟩

/-! ### C8: the LLM / vision interpretation stage never throws -/

/-- Claim C8: every failure outcome of the LLM interpretation call
(network failure, non-2xx status, unparseable model output) yields the
empty interpretation, and every failure outcome of the vision call
(including a missing credential) yields `null` — the pipeline proceeds
with collector data in both cases. -/
theorem claim_C8 :
    (∀ o : LLMCallOutcome, llmOutcomeFailed o = true →
      interpretBrandAssetsWithLLM o = emptyInterpretation) ∧
    (∀ o : VisionOutcome, visionOutcomeFailed o = true →
      extractBrandAssetsWithVision o = none) := by
  constructor
  · intro o h
    cases o with
    | networkFailure => rfl
    | httpErrorStatus s => rfl
    | responseContent p =>
      cases p with
      | none => rfl
      | some v => exact absurd h (by simp [llmOutcomeFailed])
  · intro o h
    cases o with
    | noApiKey => rfl
    | visionNetworkFailure => rfl
    | visionHttpError s => rfl
    | visionContent p =>
      cases p with
      | none => rfl
      | some v => exact absurd h (by simp [visionOutcomeFailed])

/-- Witness for C8 at two concrete failure outcomes. -/
theorem claim_C8_witness :
    interpretBrandAssetsWithLLM LLMCallOutcome.networkFailure = emptyInterpretation ∧
    extractBrandAssetsWithVision VisionOutcome.noApiKey = none :=
  ⟨claim_C8.1 LLMCallOutcome.networkFailure rfl, claim_C8.2 VisionOutcome.noApiKey rfl⟩

/-! ### C9: typography role assignment -/

/-- Claim C9 as stated is false: `body` is only required to differ from
`subheadings`, not from `headlines`.  With a display font and a
sans-serif font sharing the family "Alpha" plus a sans-serif "Beta",
the code picks body = "Alpha", the same family as headlines. -/
theorem claim_C9_counterexample :
    (buildTypography
        [⟨"Alpha", ["400"], .display, none⟩, ⟨"Alpha", ["400"], .sansSerif, none⟩,
         ⟨"Beta", ["400"], .sansSerif, none⟩]).headlines.family = "Alpha" ∧
    (buildTypography
        [⟨"Alpha", ["400"], .display, none⟩, ⟨"Alpha", ["400"], .sansSerif, none⟩,
         ⟨"Beta", ["400"], .sansSerif, none⟩]).subheadings.family = "Beta" ∧
    (buildTypography
        [⟨"Alpha", ["400"], .display, none⟩, ⟨"Alpha", ["400"], .sansSerif, none⟩,
         ⟨"Beta", ["400"], .sansSerif, none⟩]).body.family
      = (buildTypography
        [⟨"Alpha", ["400"], .display, none⟩, ⟨"Alpha", ["400"], .sansSerif, none⟩,
         ⟨"Beta", ["400"], .sansSerif, none⟩]).headlines.family := by
  refine ⟨rfl, rfl, rfl⟩

/-- Splitting lemma for `List.find?`: a found element is the FIRST match,
every element before it fails the predicate. -/
theorem find?_split {α : Type} (p : α → Bool) (l : List α) (x : α)
    (h : l.find? p = some x) :
    ∃ l1 l2, l = l1 ++ x :: l2 ∧ p x = true ∧ ∀ f ∈ l1, ¬ p f = true := by
  induction l with
  | nil => simp at h
  | cons a t ih =>
    by_cases hp : p a = true
    · rw [List.find?_cons_of_pos _ hp] at h
      cases h
      exact ⟨[], t, rfl, hp, by simp⟩
    · rw [List.find?_cons_of_neg _ (by simpa using hp)] at h
      obtain ⟨l1, l2, he, hx, hall⟩ := ih h
      refine ⟨a :: l1, l2, by rw [he, List.cons_append], hx, ?_⟩
      intro f hf
      rcases List.mem_cons.mp hf with rfl | hf2
      · exact hp
      · exact hall f hf2

/-- Claim C9 (corrected): headlines is the FIRST detected serif-or-display
font (default Palatino Linotype), subheadings the first detected
sans-serif with family different from headlines (default Montserrat),
`code` the first detected monospace (default IBM Plex Mono); `body` is
the first detected sans-serif whose family differs from subheadings
only — it may equal the headlines family (default PT Sans).  "First" is
stated by splitting the input around the chosen font with every earlier
font failing the role's predicate; each role falls back exactly when no
detected font satisfies its predicate. -/
theorem claim_C9 (fonts : List Font) :
    ((∃ l1 l2, fonts = l1 ++ (buildTypography fonts).headlines :: l2 ∧
        ((buildTypography fonts).headlines.category = FontCategory.serif ∨
         (buildTypography fonts).headlines.category = FontCategory.display) ∧
        ∀ f ∈ l1, f.category ≠ FontCategory.serif ∧ f.category ≠ FontCategory.display) ∨
      (∀ f ∈ fonts, f.category ≠ FontCategory.serif ∧ f.category ≠ FontCategory.display) ∧
      (buildTypography fonts).headlines = ⟨"Palatino Linotype", ["400", "700"], .serif, none⟩) ∧
    ((∃ l1 l2, fonts = l1 ++ (buildTypography fonts).subheadings :: l2 ∧
        ((buildTypography fonts).subheadings.category = FontCategory.sansSerif ∧
         (buildTypography fonts).subheadings.family ≠ (buildTypography fonts).headlines.family) ∧
        ∀ f ∈ l1, ¬(f.category = FontCategory.sansSerif ∧
          f.family ≠ (buildTypography fonts).headlines.family)) ∨
      (∀ f ∈ fonts, ¬(f.category = FontCategory.sansSerif ∧
        f.family ≠ (buildTypography fonts).headlines.family)) ∧
      (buildTypography fonts).subheadings = ⟨"Montserrat", ["500", "600"], .sansSerif, none⟩) ∧
    ((∃ l1 l2, fonts = l1 ++ (buildTypography fonts).body :: l2 ∧
        ((buildTypography fonts).body.category = FontCategory.sansSerif ∧
         (buildTypography fonts).body.family ≠ (buildTypography fonts).subheadings.family) ∧
        ∀ f ∈ l1, ¬(f.category = FontCategory.sansSerif ∧
          f.family ≠ (buildTypography fonts).subheadings.family)) ∨
      (∀ f ∈ fonts, ¬(f.category = FontCategory.sansSerif ∧
        f.family ≠ (buildTypography fonts).subheadings.family)) ∧
      (buildTypography fonts).body = ⟨"PT Sans", ["400", "700"], .sansSerif, none⟩) ∧
    ((∃ l1 l2, fonts = l1 ++ (buildTypography fonts).code :: l2 ∧
        (buildTypography fonts).code.category = FontCategory.monospace ∧
        ∀ f ∈ l1, f.category ≠ FontCategory.monospace) ∨
      (∀ f ∈ fonts, f.category ≠ FontCategory.monospace) ∧
      (buildTypography fonts).code = ⟨"IBM Plex Mono", ["400"], .monospace, none⟩) := by
  have hHead : (buildTypography fonts).headlines
      = (fonts.find? (fun f =>
          f.category == FontCategory.serif || f.category == FontCategory.display)).getD
        ⟨"Palatino Linotype", ["400", "700"], .serif, none⟩ := rfl
  have hSub : (buildTypography fonts).subheadings
      = (fonts.find? (fun f =>
          f.category == FontCategory.sansSerif &&
            f.family != (buildTypography fonts).headlines.family)).getD
        ⟨"Montserrat", ["500", "600"], .sansSerif, none⟩ := rfl
  have hBody : (buildTypography fonts).body
      = (fonts.find? (fun f =>
          f.category == FontCategory.sansSerif &&
            f.family != (buildTypography fonts).subheadings.family)).getD
        ⟨"PT Sans", ["400", "700"], .sansSerif, none⟩ := rfl
  have hCode : (buildTypography fonts).code
      = (fonts.find? (fun f => f.category == FontCategory.monospace)).getD
        ⟨"IBM Plex Mono", ["400"], .monospace, none⟩ := rfl
  refine ⟨?_, ?_, ?_, ?_⟩
  · rcases hf : fonts.find? (fun f =>
        f.category == FontCategory.serif || f.category == FontCategory.display) with _ | f
    · right
      refine ⟨fun f hmem => ?_, by rw [hHead, hf]; rfl⟩
      have := List.find?_eq_none.mp hf f hmem
      simp only [Bool.or_eq_true, beq_iff_eq, not_or] at this
      exact this
    · left
      have hpick : (buildTypography fonts).headlines = f := by rw [hHead, hf]; rfl
      obtain ⟨l1, l2, he, hx, hall⟩ := find?_split _ fonts f hf
      rw [hpick]
      refine ⟨l1, l2, he, ?_, ?_⟩
      · simpa only [Bool.or_eq_true, beq_iff_eq] using hx
      · intro f2 hf2
        have := hall f2 hf2
        simp only [Bool.or_eq_true, beq_iff_eq, not_or] at this
        exact this
  · rcases hf : fonts.find? (fun f =>
        f.category == FontCategory.sansSerif &&
          f.family != (buildTypography fonts).headlines.family) with _ | f
    · right
      refine ⟨fun f hmem => ?_, by rw [hSub, hf]; rfl⟩
      have := List.find?_eq_none.mp hf f hmem
      simp only [Bool.and_eq_true, beq_iff_eq, bne_iff_ne, ne_eq] at this
      tauto
    · left
      have hpick : (buildTypography fonts).subheadings = f := by rw [hSub, hf]; rfl
      obtain ⟨l1, l2, he, hx, hall⟩ := find?_split _ fonts f hf
      rw [hpick]
      refine ⟨l1, l2, he, ?_, ?_⟩
      · simpa only [Bool.and_eq_true, beq_iff_eq, bne_iff_ne, ne_eq] using hx
      · intro f2 hf2
        have := hall f2 hf2
        simp only [Bool.and_eq_true, beq_iff_eq, bne_iff_ne, ne_eq] at this
        tauto
  · rcases hf : fonts.find? (fun f =>
        f.category == FontCategory.sansSerif &&
          f.family != (buildTypography fonts).subheadings.family) with _ | f
    · right
      refine ⟨fun f hmem => ?_, by rw [hBody, hf]; rfl⟩
      have := List.find?_eq_none.mp hf f hmem
      simp only [Bool.and_eq_true, beq_iff_eq, bne_iff_ne, ne_eq] at this
      tauto
    · left
      have hpick : (buildTypography fonts).body = f := by rw [hBody, hf]; rfl
      obtain ⟨l1, l2, he, hx, hall⟩ := find?_split _ fonts f hf
      rw [hpick]
      refine ⟨l1, l2, he, ?_, ?_⟩
      · simpa only [Bool.and_eq_true, beq_iff_eq, bne_iff_ne, ne_eq] using hx
      · intro f2 hf2
        have := hall f2 hf2
        simp only [Bool.and_eq_true, beq_iff_eq, bne_iff_ne, ne_eq] at this
        tauto
  · rcases hf : fonts.find? (fun f => f.category == FontCategory.monospace) with _ | f
    · right
      refine ⟨fun f hmem => ?_, by rw [hCode, hf]; rfl⟩
      have := List.find?_eq_none.mp hf f hmem
      simpa using this
    · left
      have hpick : (buildTypography fonts).code = f := by rw [hCode, hf]; rfl
      obtain ⟨l1, l2, he, hx, hall⟩ := find?_split _ fonts f hf
      rw [hpick]
      refine ⟨l1, l2, he, ?_, ?_⟩
      · simpa only [beq_iff_eq] using hx
      · intro f2 hf2
        have := hall f2 hf2
        simpa only [beq_iff_eq] using this

/-- Witness for C9: with no detected fonts every role is its fixed
default, and on two sans-serif fonts the earlier one takes subheadings
while `body` moves to the later one, exhibiting the first-match order. -/
theorem claim_C9_witness :
    (buildTypography []).headlines = ⟨"Palatino Linotype", ["400", "700"], .serif, none⟩ ∧
    (buildTypography []).body = ⟨"PT Sans", ["400", "700"], .sansSerif, none⟩ ∧
    (buildTypography
      [⟨"Alpha", ["400"], .sansSerif, none⟩,
       ⟨"Beta", ["400"], .sansSerif, none⟩]).subheadings.family = "Alpha" ∧
    (buildTypography
      [⟨"Alpha", ["400"], .sansSerif, none⟩,
       ⟨"Beta", ["400"], .sansSerif, none⟩]).body.family = "Beta" := by
  have h := claim_C9 []
  refine ⟨?_, ?_, rfl, rfl⟩
  · rcases h.1 with ⟨l1, l2, he, _, _⟩ | ⟨_, he⟩
    · exact absurd he.symm (by simp)
    · exact he
  · rcases h.2.2.1 with ⟨l1, l2, he, _, _⟩ | ⟨_, he⟩
    · exact absurd he.symm (by simp)
    · exact he

/-! ### C4: default palette from the empty extraction -/

set_option maxRecDepth 40000 in
/-- Claim C4: `buildColorPalette []` is fully populated from the fixed
defaults: navy, teal and coral base scales, the ten-step neutral scale,
the three fixed utility colors and the four fixed semantic colors. -/
theorem claim_C4 :
    (buildColorPalette []).primary.base.hex = "#1e3a8a" ∧
    (buildColorPalette []).primary.base.name = some "Primary Base" ∧
    (buildColorPalette []).secondary.base.hex = "#028393" ∧
    (buildColorPalette []).secondary.base.name = some "Secondary Base" ∧
    (buildColorPalette []).accent.base.hex = "#f65625" ∧
    (buildColorPalette []).accent.base.name = some "Accent Base" ∧
    (buildColorPalette []).neutral.length = 10 ∧
    (buildColorPalette []).utility.map Color.hex = ["#faaa68", "#98c1d9", "#3d5a80"] ∧
    (buildColorPalette []).semantic.success.hex = "#22c55e" ∧
    (buildColorPalette []).semantic.error.hex = "#ef4444" ∧
    (buildColorPalette []).semantic.warning.hex = "#f59e0b" ∧
    (buildColorPalette []).semantic.info.hex = "#3b82f6" ∧
    (buildColorPalette []).primary.s500.hex = "#294fbd" ∧
    (buildColorPalette []).primary.s50.hsl.l = 97 := by
  decide

/-! ### C5: gradient classification and angle inference -/

theorem startsWith_append (n : List Char) :
    ∀ (hay t : List Char), listStartsWith hay (n ++ t) = true → listStartsWith hay n = true := by
  induction n with
  | nil => intro hay t _; cases hay <;> rfl
  | cons c cs ih =>
    intro hay t h
    cases hay with
    | nil => exact absurd h (by simp [listStartsWith])
    | cons d ds =>
      simp only [List.cons_append, listStartsWith, Bool.and_eq_true] at h ⊢
      exact ⟨h.1, ih ds t h.2⟩

theorem containsSub_append :
    ∀ (hay n t : List Char), listContainsSub hay (n ++ t) = true → listContainsSub hay n = true := by
  intro hay
  induction hay with
  | nil =>
    intro n t h
    simp only [listContainsSub, List.isEmpty_eq_true, List.append_eq_nil] at h ⊢
    exact h.1
  | cons c cs ih =>
    intro n t h
    simp only [listContainsSub, Bool.or_eq_true] at h ⊢
    rcases h with h | h
    · exact Or.inl (startsWith_append n _ t h)
    · exact Or.inr (ih n t h)

theorem includes_false_of_seg (css : String) (n t : List Char)
    (h : listContainsSub css.data n = false) : listContainsSub css.data (n ++ t) = false := by
  cases hc : listContainsSub css.data (n ++ t) with
  | false => rfl
  | true => exact absurd (containsSub_append css.data n t hc) (by simp [h])

/-- Claim C5 as stated is false for the diagonal keywords: a linear
gradient with `to bottom right` gets angle 180 (the `to bottom` substring
check fires first), not the claimed 135. -/
theorem claim_C5_counterexample :
    (classifyGradient "linear-gradient(to bottom right, #fff, #000)").angle = some 180 ∧
    (classifyGradient "linear-gradient(to bottom right, #fff, #000)").angle ≠ some 135 := by
  constructor
  · decide
  · decide

/-- Claim C5 (corrected): type is classified by substring
(radial-gradient, then conic-gradient, else linear); a linear gradient
takes an explicit `Ndeg` angle first, then the cardinal keywords
(`to right` 90, `to left` 270, `to bottom` 180, `to top` 0), and keeps
`angle` undefined when none match.  The diagonal keyword branches are
dead code — every diagonal phrase contains its cardinal prefix, so
`to bottom right`/`to bottom left` give 180, `to top right`/`to top left`
give 0, `to right bottom`/`to right top` give 90 and `to left bottom`/
`to left top` give 270 — and the classifier coincides with the
cheerio-based variant that has no diagonal branches at all. -/
theorem claim_C5 :
    (∀ css : String, strIncludes css "radial-gradient" = true →
      classifyGradient css = ⟨css, .radial, none⟩) ∧
    (∀ css : String, strIncludes css "radial-gradient" = false →
      strIncludes css "conic-gradient" = true →
      classifyGradient css = ⟨css, .conic, none⟩) ∧
    (∀ (css : String) (n : ℕ), strIncludes css "radial-gradient" = false →
      strIncludes css "conic-gradient" = false → findAngle css.data = some n →
      classifyGradient css = ⟨css, .linear, some n⟩) ∧
    (∀ css : String, strIncludes css "radial-gradient" = false →
      strIncludes css "conic-gradient" = false → findAngle css.data = none →
      strIncludes css "to right" = false → strIncludes css "to left" = false →
      strIncludes css "to bottom" = false → strIncludes css "to top" = false →
      classifyGradient css = ⟨css, .linear, none⟩) ∧
    (∀ css : String, classifyGradient css = classifyGradientCSS css) ∧
    classifyGradient "linear-gradient(to right, #fff, #000)"
      = ⟨"linear-gradient(to right, #fff, #000)", .linear, some 90⟩ ∧
    classifyGradient "linear-gradient(45deg, #fff, #000)"
      = ⟨"linear-gradient(45deg, #fff, #000)", .linear, some 45⟩ ∧
    classifyGradient "radial-gradient(circle, #fff, #000)"
      = ⟨"radial-gradient(circle, #fff, #000)", .radial, none⟩ ∧
    classifyGradient "linear-gradient(#fff, #000)"
      = ⟨"linear-gradient(#fff, #000)", .linear, none⟩ ∧
    (classifyGradient "linear-gradient(to bottom right, #fff, #000)").angle = some 180 ∧
    (classifyGradient "linear-gradient(to bottom left, #fff, #000)").angle = some 180 ∧
    (classifyGradient "linear-gradient(to top right, #fff, #000)").angle = some 0 ∧
    (classifyGradient "linear-gradient(to top left, #fff, #000)").angle = some 0 ∧
    (classifyGradient "linear-gradient(to right bottom, #fff, #000)").angle = some 90 ∧
    (classifyGradient "linear-gradient(to right top, #fff, #000)").angle = some 90 ∧
    (classifyGradient "linear-gradient(to left bottom, #fff, #000)").angle = some 270 ∧
    (classifyGradient "linear-gradient(to left top, #fff, #000)").angle = some 270 := by
  have hdiag : ∀ css : String,
      strIncludes css "to right" = false → strIncludes css "to left" = false →
      strIncludes css "to bottom" = false → strIncludes css "to top" = false →
      strIncludes css "to bottom right" = false ∧ strIncludes css "to right bottom" = false ∧
      strIncludes css "to top right" = false ∧ strIncludes css "to right top" = false ∧
      strIncludes css "to bottom left" = false ∧ strIncludes css "to left bottom" = false ∧
      strIncludes css "to top left" = false ∧ strIncludes css "to left top" = false := by
    intro css hr hl hb ht
    refine ⟨?_, ?_, ?_, ?_, ?_, ?_, ?_, ?_⟩
    · simpa [strIncludes] using
        includes_false_of_seg css "to bottom".data " right".data (by simpa [strIncludes] using hb)
    · simpa [strIncludes] using
        includes_false_of_seg css "to right".data " bottom".data (by simpa [strIncludes] using hr)
    · simpa [strIncludes] using
        includes_false_of_seg css "to top".data " right".data (by simpa [strIncludes] using ht)
    · simpa [strIncludes] using
        includes_false_of_seg css "to right".data " top".data (by simpa [strIncludes] using hr)
    · simpa [strIncludes] using
        includes_false_of_seg css "to bottom".data " left".data (by simpa [strIncludes] using hb)
    · simpa [strIncludes] using
        includes_false_of_seg css "to left".data " bottom".data (by simpa [strIncludes] using hl)
    · simpa [strIncludes] using
        includes_false_of_seg css "to top".data " left".data (by simpa [strIncludes] using ht)
    · simpa [strIncludes] using
        includes_false_of_seg css "to left".data " top".data (by simpa [strIncludes] using hl)
  refine ⟨?_, ?_, ?_, ?_, ?_, by decide, by decide, by decide, by decide, by decide, by decide,
    by decide, by decide, by decide, by decide, by decide, by decide⟩
  · intro css h; simp [classifyGradient, h]
  · intro css h1 h2; simp [classifyGradient, h1, h2]
  · intro css n h1 h2 hfa; simp [classifyGradient, h1, h2, hfa]
  · intro css h1 h2 hfa hr hl hb ht
    obtain ⟨d1, d2, d3, d4, d5, d6, d7, d8⟩ := hdiag css hr hl hb ht
    simp [classifyGradient, h1, h2, hfa, hr, hl, hb, ht, d1, d2, d3, d4, d5, d6, d7, d8]
  · intro css
    by_cases h1 : strIncludes css "radial-gradient" = true
    · simp [classifyGradient, classifyGradientCSS, h1]
    · rw [Bool.not_eq_true] at h1
      by_cases h2 : strIncludes css "conic-gradient" = true
      · simp [classifyGradient, classifyGradientCSS, h1, h2]
      · rw [Bool.not_eq_true] at h2
        cases hfa : findAngle css.data with
        | some n => simp [classifyGradient, classifyGradientCSS, h1, h2, hfa]
        | none =>
          by_cases hr : strIncludes css "to right" = true
          · simp [classifyGradient, classifyGradientCSS, h1, h2, hfa, hr]
          · rw [Bool.not_eq_true] at hr
            by_cases hl : strIncludes css "to left" = true
            · simp [classifyGradient, classifyGradientCSS, h1, h2, hfa, hr, hl]
            · rw [Bool.not_eq_true] at hl
              by_cases hb : strIncludes css "to bottom" = true
              · simp [classifyGradient, classifyGradientCSS, h1, h2, hfa, hr, hl, hb]
              · rw [Bool.not_eq_true] at hb
                by_cases ht : strIncludes css "to top" = true
                · simp [classifyGradient, classifyGradientCSS, h1, h2, hfa, hr, hl, hb, ht]
                · rw [Bool.not_eq_true] at ht
                  obtain ⟨d1, d2, d3, d4, d5, d6, d7, d8⟩ := hdiag css hr hl hb ht
                  simp [classifyGradient, classifyGradientCSS, h1, h2, hfa, hr, hl, hb, ht,
                    d1, d2, d3, d4, d5, d6, d7, d8]

/-- Witness for C5 at the spec's own examples. -/
theorem claim_C5_witness :
    classifyGradient "radial-gradient(#abc, #def)"
      = ⟨"radial-gradient(#abc, #def)", .radial, none⟩ ∧
    classifyGradient "linear-gradient(to left, #abc, #def)"
      = ⟨"linear-gradient(to left, #abc, #def)", .linear, some 270⟩ :=
  ⟨claim_C5.1 "radial-gradient(#abc, #def)" (by decide),
   by
    have h := claim_C5.2.2.2.2.1 "linear-gradient(to left, #abc, #def)"
    rw [h]
    decide⟩

/-! ### C6: collector denylist filtering, dedup and cap -/

theorem dedupStrGo_nodup :
    ∀ (l acc : List String), acc.Nodup →
      (List.foldl (fun acc s => if acc.contains s then acc else acc ++ [s]) acc l).Nodup := by
  intro l
  induction l with
  | nil => intro acc h; simpa using h
  | cons s rest ih =>
    intro acc hacc
    simp only [List.foldl_cons]
    by_cases hc : acc.contains s = true
    · rw [if_pos hc]; exact ih acc hacc
    · rw [if_neg (by simpa using hc)]
      refine ih _ ?_
      have hs : s ∉ acc := by
        intro hmem
        exact hc (List.contains_iff_exists_mem_beq.mpr ⟨s, hmem, by simp⟩)
      refine List.nodup_append.mpr ⟨hacc, by simp, ?_⟩
      intro a ha hb
      rw [List.mem_singleton] at hb
      exact hs (hb ▸ ha)

theorem dedupStr_nodup (l : List String) : (dedupStr l).Nodup :=
  dedupStrGo_nodup l [] (by simp)

/-- Claim C6: for every collected `RawCSSData` the color post-processing
output contains none of the denylisted hexes (in particular never
`#ffffff` or `#333333`), is duplicate-free, and has at most 20 entries. -/
theorem claim_C6 (cssData : RawCSSData) :
    (∀ d ∈ nonBrandColors, d ∉ parseColorsFromCSS cssData) ∧
    (parseColorsFromCSS cssData).Nodup ∧
    (parseColorsFromCSS cssData).length ≤ 20 := by
  refine ⟨?_, ?_, ?_⟩
  · intro d hd hmem
    simp only [parseColorsFromCSS] at hmem
    have hmem' := (List.take_sublist _ _).subset hmem
    have h2 := List.mem_filter.mp hmem'
    have hlow : strToLower d = d := by
      have hall : ∀ x ∈ nonBrandColors, strToLower x = x := by decide
      exact hall d hd
    have h3 := h2.2
    rw [Bool.not_eq_eq_eq_not, Bool.not_true] at h3
    rw [hlow] at h3
    have : nonBrandColors.contains d = true :=
      List.contains_iff_exists_mem_beq.mpr ⟨d, hd, by simp⟩
    rw [this] at h3
    exact Bool.true_eq_false.mp h3
  · simp only [parseColorsFromCSS]
    exact ((dedupStr_nodup _).filter _).sublist (List.take_sublist _ _)
  · simp only [parseColorsFromCSS]
    exact List.length_take_le _ _

/-- Witness for C6: a collected set containing `#FFFFFF` and `#ffffff`
many times never surfaces `#ffffff`. -/
theorem claim_C6_witness :
    "#ffffff" ∉ parseColorsFromCSS ⟨["#FFFFFF", "#ff0000", "#ffffff", "#fff"], [], [], []⟩ ∧
    "#333333" ∉ parseColorsFromCSS ⟨["#FFFFFF", "#ff0000", "#ffffff", "#fff"], [], [], []⟩ ∧
    (parseColorsFromCSS ⟨["#FFFFFF", "#ff0000", "#ffffff", "#fff"], [], [], []⟩).length ≤ 20 :=
  ⟨(claim_C6 _).1 "#ffffff" (by decide), (claim_C6 _).1 "#333333" (by decide), (claim_C6 _).2.2⟩

/-! ### C2: role assignment in buildColorPalette -/

theorem insertBySat_ne_nil (c : Color) (l : List Color) : insertBySat c l ≠ [] := by
  cases l with
  | nil => simp [insertBySat]
  | cons d ds =>
    unfold insertBySat
    split_ifs <;> simp

theorem sortBySatDesc_eq_nil_iff (l : List Color) : sortBySatDesc l = [] ↔ l = [] := by
  cases l with
  | nil => simp [sortBySatDesc]
  | cons c cs =>
    simp only [sortBySatDesc, List.foldr_cons]
    exact ⟨fun h => absurd h (insertBySat_ne_nil c _), fun h => absurd h (by simp)⟩

theorem mem_insertBySat (x c : Color) (l : List Color) :
    x ∈ insertBySat c l ↔ x = c ∨ x ∈ l := by
  induction l with
  | nil => simp [insertBySat]
  | cons d ds ih =>
    unfold insertBySat
    split_ifs with h
    · simp [or_assoc]
    · simp only [List.mem_cons, ih]
      tauto

/-- The head of the saturation-descending sort is a maximum-saturation
element of the input. -/
theorem sortBySatDesc_head_max :
    ∀ (l : List Color) (m : Color) (rest : List Color), sortBySatDesc l = m :: rest →
      m ∈ l ∧ ∀ x ∈ l, x.hsl.s ≤ m.hsl.s := by
  intro l
  induction l with
  | nil => intro m rest h; simp [sortBySatDesc] at h
  | cons c cs ih =>
    intro m rest h
    simp only [sortBySatDesc, List.foldr_cons] at h
    rcases hsrt : sortBySatDesc cs with _ | ⟨m', rest'⟩
    · have hcs : cs = [] := (sortBySatDesc_eq_nil_iff cs).mp hsrt
      rw [show List.foldr insertBySat [] cs = sortBySatDesc cs from rfl, hsrt] at h
      simp only [insertBySat] at h
      cases h
      subst hcs
      exact ⟨by simp, by simp⟩
    · rw [show List.foldr insertBySat [] cs = sortBySatDesc cs from rfl, hsrt] at h
      obtain ⟨hmem', hmax'⟩ := ih m' rest' hsrt
      unfold insertBySat at h
      split_ifs at h with hlt
    -- m = c: strictly more saturated than the previous head
      · cases h
        refine ⟨by simp, ?_⟩
        intro x hx
        rcases List.mem_cons.mp hx with rfl | hx'
        · exact le_refl _
        · exact le_trans (hmax' x hx') hlt
      · cases h
        refine ⟨List.mem_cons_of_mem c hmem', ?_⟩
        intro x hx
        rcases List.mem_cons.mp hx with rfl | hx'
        · exact le_of_not_le hlt
        · exact hmax' x hx'

/-- The primary base of the palette is the head of the saturation sort of
the cluster representatives (with the navy default), with the role name
attached; its hex is unchanged. -/
theorem buildColorPalette_primary_base_hex (cs : List String) :
    (buildColorPalette cs).primary.base.hex
      = ((sortBySatDesc (clusterColors ((cs.filterMap parseColor).filter
          (fun c => decide (10 < c.hsl.l) && decide (c.hsl.l < 90))) 25)).head?.getD
          (parseColorD "#1e3a8a")).hex := rfl

set_option maxRecDepth 40000 in
/-- Evaluation of the palette on the spec's navy/teal/orange example
(shared by the C2 theorems): teal is the most saturated surviving color
(97, against 92 for orange and 64 for navy), orange is the first at
deltaE > 30 from teal, and no input is both > 40 from teal and > 30 from
orange (navy–teal is only ≈ 31.7), so the accent falls back to the
default coral, whose hex equals the orange input. -/
theorem palette3_bases :
    (buildColorPalette ["#1e3a8a", "#028393", "#f65625"]).primary.base.hex = "#028393" ∧
    (buildColorPalette ["#1e3a8a", "#028393", "#f65625"]).secondary.base.hex = "#f65625" ∧
    (buildColorPalette ["#1e3a8a", "#028393", "#f65625"]).accent.base.hex = "#f65625" ∧
    (buildColorPalette ["#1e3a8a", "#028393", "#f65625"]).accent.base.usage
      = some "CTAs, urgency, highlights" := by
  decide

/-- Claim C2 as stated is false: on `[#1e3a8a, #028393, #f65625]` the
primary base is the teal `#028393` (the most saturated surviving color),
not the navy `#1e3a8a`. -/
theorem claim_C2_counterexample :
    (buildColorPalette ["#1e3a8a", "#028393", "#f65625"]).primary.base.hex = "#028393" ∧
    (buildColorPalette ["#1e3a8a", "#028393", "#f65625"]).primary.base.hex ≠ "#1e3a8a" := by
  refine ⟨palette3_bases.1, ?_⟩
  rw [palette3_bases.1]
  decide

/-- Claim C2 (corrected): on `[#1e3a8a, #028393, #f65625]` the engine
assigns teal → primary, orange → secondary, and the accent falls back to
the default coral `#f65625` (no candidate is both deltaE > 40 from teal
and > 30 from orange); in general the primary base is the most-saturated
surviving cluster representative, or the fixed navy default when none
survive. -/
theorem claim_C2 :
    ((buildColorPalette ["#1e3a8a", "#028393", "#f65625"]).primary.base.hex = "#028393" ∧
     (buildColorPalette ["#1e3a8a", "#028393", "#f65625"]).secondary.base.hex = "#f65625" ∧
     (buildColorPalette ["#1e3a8a", "#028393", "#f65625"]).accent.base.hex = "#f65625") ∧
    ∀ cs : List String,
      (clusterColors ((cs.filterMap parseColor).filter
          (fun c => decide (10 < c.hsl.l) && decide (c.hsl.l < 90))) 25 = [] →
        (buildColorPalette cs).primary.base.hex = "#1e3a8a") ∧
      (clusterColors ((cs.filterMap parseColor).filter
          (fun c => decide (10 < c.hsl.l) && decide (c.hsl.l < 90))) 25 ≠ [] →
        ∃ m ∈ clusterColors ((cs.filterMap parseColor).filter
            (fun c => decide (10 < c.hsl.l) && decide (c.hsl.l < 90))) 25,
          (buildColorPalette cs).primary.base.hex = m.hex ∧
          ∀ x ∈ clusterColors ((cs.filterMap parseColor).filter
              (fun c => decide (10 < c.hsl.l) && decide (c.hsl.l < 90))) 25,
            x.hsl.s ≤ m.hsl.s) := by
  refine ⟨⟨palette3_bases.1, palette3_bases.2.1, palette3_bases.2.2.1⟩, ?_⟩
  intro cs
  constructor
  · intro hnil
    rw [buildColorPalette_primary_base_hex, hnil]
    rfl
  · intro hne
    rcases hsrt : sortBySatDesc (clusterColors ((cs.filterMap parseColor).filter
        (fun c => decide (10 < c.hsl.l) && decide (c.hsl.l < 90))) 25) with _ | ⟨m, rest⟩
    · exact absurd ((sortBySatDesc_eq_nil_iff _).mp hsrt) hne
    · obtain ⟨hmem, hmax⟩ := sortBySatDesc_head_max _ m rest hsrt
      refine ⟨m, hmem, ?_, hmax⟩
      rw [buildColorPalette_primary_base_hex, hsrt]
      rfl

/-- Witness for C2's general part: the empty input falls back to navy,
and a singleton input is its own most-saturated representative. -/
theorem claim_C2_witness :
    (buildColorPalette []).primary.base.hex = "#1e3a8a" ∧
    ∃ m ∈ clusterColors (((["#ff0000"] : List String).filterMap parseColor).filter
        (fun c => decide (10 < c.hsl.l) && decide (c.hsl.l < 90))) 25,
      (buildColorPalette ["#ff0000"]).primary.base.hex = m.hex ∧
      ∀ x ∈ clusterColors (((["#ff0000"] : List String).filterMap parseColor).filter
          (fun c => decide (10 < c.hsl.l) && decide (c.hsl.l < 90))) 25,
        x.hsl.s ≤ m.hsl.s :=
  ⟨((claim_C2.2 []).1) (by decide), ((claim_C2.2 ["#ff0000"]).2) (by decide)⟩

/-! ### C7: ranges of the rounded hsl record -/

theorem jsRound_pair_nonneg (n d : ℤ) (h0 : 0 ≤ n) (hd : 0 ≤ d) :
    0 ≤ Q.jsRound ⟨n, d⟩ := by
  show 0 ≤ (2 * n + d).ediv (2 * d)
  exact Int.ediv_nonneg (by omega) (by omega)

theorem jsRound_pair_le (n d K : ℤ) (hd : 0 < d) (h : n ≤ K * d) :
    Q.jsRound ⟨n, d⟩ ≤ K := by
  show (2 * n + d).ediv (2 * d) ≤ K
  have hlt : (2 * n + d) / (2 * d) < K + 1 :=
    (Int.ediv_lt_iff_lt_mul (by omega)).mpr (by nlinarith)
  exact Int.lt_add_one_iff.mp hlt

/-- The three rounded hsl components of any integer rgb triple in
[0,255]³ lie in [0,360] × [0,100] × [0,100]. -/
theorem roundedHsl_bounds (r g b : ℤ) (hr0 : 0 ≤ r) (hr1 : r ≤ 255) (hg0 : 0 ≤ g)
    (hg1 : g ≤ 255) (hb0 : 0 ≤ b) (hb1 : b ≤ 255) :
    0 ≤ (roundedHsl r g b).h ∧ (roundedHsl r g b).h ≤ 360 ∧
    0 ≤ (roundedHsl r g b).s ∧ (roundedHsl r g b).s ≤ 100 ∧
    0 ≤ (roundedHsl r g b).l ∧ (roundedHsl r g b).l ≤ 100 := by
  have hrmx : r ≤ max r (max g b) := le_max_left _ _
  have hgmx : g ≤ max r (max g b) := le_trans (le_max_left _ _) (le_max_right _ _)
  have hbmx : b ≤ max r (max g b) := le_trans (le_max_right _ _) (le_max_right _ _)
  have hrmn : min r (min g b) ≤ r := min_le_left _ _
  have hgmn : min r (min g b) ≤ g := le_trans (min_le_right _ _) (min_le_left _ _)
  have hbmn : min r (min g b) ≤ b := le_trans (min_le_right _ _) (min_le_right _ _)
  have hmx1 : max r (max g b) ≤ 255 := max_le hr1 (max_le hg1 hb1)
  have hmn0 : 0 ≤ min r (min g b) := le_min hr0 (le_min hg0 hb0)
  have hmnmx : min r (min g b) ≤ max r (max g b) := le_trans hrmn hrmx
  simp only [roundedHsl, rgb2hslExact]
  split_ifs with h1 h2 h3 h4 h5 h6 h7 h8 h9 h10 h11 h12 <;>
    simp only [Q.mul, Q.ofInt] <;>
    refine ⟨?_, ?_, ?_, ?_, ?_, ?_⟩ <;>
    first
      | exact jsRound_pair_nonneg _ _ (by omega) (by omega)
      | exact jsRound_pair_le _ _ 360 (by omega) (by omega)
      | exact jsRound_pair_le _ _ 100 (by omega) (by omega)

theorem hexDigitVal_lt (c : Char) (v : ℕ) (h : hexDigitVal c = some v) : v < 16 := by
  unfold hexDigitVal at h
  split_ifs at h <;> cases h <;> omega

theorem parseHexDigits_lt (l : List Char) :
    ∀ vs : List ℕ, parseHexDigits l = some vs → ∀ v ∈ vs, v < 16 := by
  induction l with
  | nil =>
    intro vs h
    simp only [parseHexDigits, Option.some.injEq] at h
    subst h
    simp
  | cons c cs ih =>
    intro vs h
    simp only [parseHexDigits] at h
    cases hv : hexDigitVal c with
    | none => rw [hv] at h; cases h
    | some v =>
      cases hps : parseHexDigits cs with
      | none => rw [hv, hps] at h; cases h
      | some ws =>
        rw [hv, hps] at h
        cases h
        intro x hx
        rcases List.mem_cons.mp hx with rfl | hx'
        · exact hexDigitVal_lt c x hv
        · exact ih ws hps x hx'

/-- Every `parseColor` result carries integer rgb channels in [0,255],
with the hsl record recomputed from exactly those channels. -/
theorem parseColor_shape (s : String) (c : Color) (h : parseColor s = some c) :
    0 ≤ c.rgb.r ∧ c.rgb.r ≤ 255 ∧ 0 ≤ c.rgb.g ∧ c.rgb.g ≤ 255 ∧
    0 ≤ c.rgb.b ∧ c.rgb.b ≤ 255 ∧ c.hsl = roundedHsl c.rgb.r c.rgb.g c.rgb.b := by
  unfold parseColor at h
  split at h
  case h_2 => cases h
  case h_1 rest hdata =>
    split at h <;> try cases h
    case h_1 a b d hd =>
      have hlt := parseHexDigits_lt rest _ hd
      refine ⟨?_, ?_, ?_, ?_, ?_, ?_, rfl⟩ <;>
        simp only [colorOfRgb] <;>
        (try have ha := hlt a (by simp)) <;>
        (try have hb := hlt b (by simp)) <;>
        (try have hd' := hlt d (by simp)) <;>
        omega
    case h_2 a b d e he =>
      have hlt := parseHexDigits_lt rest _ he
      have ha := hlt a (by simp)
      have hb := hlt b (by simp)
      have hd' := hlt d (by simp)
      dsimp only at h
      split_ifs at h <;> cases h <;>
        exact ⟨by simp [colorOfRgb] <;> omega, by simp [colorOfRgb] <;> omega, by simp [colorOfRgb] <;> omega,
          by simp [colorOfRgb] <;> omega, by simp [colorOfRgb] <;> omega, by simp [colorOfRgb] <;> omega, rfl⟩
    case h_3 a b d e f g hf =>
      have hlt := parseHexDigits_lt rest _ hf
      have ha := hlt a (by simp)
      have hb := hlt b (by simp)
      have hd' := hlt d (by simp)
      have he' := hlt e (by simp)
      have hf' := hlt f (by simp)
      have hg' := hlt g (by simp)
      refine ⟨?_, ?_, ?_, ?_, ?_, ?_, rfl⟩ <;> simp only [colorOfRgb] <;> omega
    case h_4 a b d e f g i j hj =>
      have hlt := parseHexDigits_lt rest _ hj
      have ha := hlt a (by simp)
      have hb := hlt b (by simp)
      have hd' := hlt d (by simp)
      have he' := hlt e (by simp)
      have hf' := hlt f (by simp)
      have hg' := hlt g (by simp)
      dsimp only at h
      split_ifs at h <;> cases h <;>
        exact ⟨by simp [colorOfRgb] <;> omega, by simp [colorOfRgb] <;> omega, by simp [colorOfRgb] <;> omega,
          by simp [colorOfRgb] <;> omega, by simp [colorOfRgb] <;> omega, by simp [colorOfRgb] <;> omega, rfl⟩

/-- Claim C7 as stated is false at `#ff0001`: the exact hue is
359.7647..., which `Math.round` rounds to 360, outside [0,360). -/
theorem claim_C7_counterexample :
    parseColor "#ff0001" = some (parseColorD "#ff0001") ∧
    (parseColorD "#ff0001").hsl.h = 360 ∧
    ¬ (parseColorD "#ff0001").hsl.h < 360 := by
  refine ⟨by decide, by decide, by decide⟩

/-- Claim C7 (corrected): every `Color` produced by `parseColor` has
integer hsl with `h ∈ [0,360]` (the upper bound 360 is attained, by
rounding of hues just below 360), `s, l ∈ [0,100]`, integer rgb channels
in [0,255], and the hsl record recomputed from exactly the channels the
rgb record holds, so the two never disagree. -/
theorem claim_C7 (s : String) (c : Color) (h : parseColor s = some c) :
    0 ≤ c.hsl.h ∧ c.hsl.h ≤ 360 ∧ 0 ≤ c.hsl.s ∧ c.hsl.s ≤ 100 ∧
    0 ≤ c.hsl.l ∧ c.hsl.l ≤ 100 ∧
    0 ≤ c.rgb.r ∧ c.rgb.r ≤ 255 ∧ 0 ≤ c.rgb.g ∧ c.rgb.g ≤ 255 ∧
    0 ≤ c.rgb.b ∧ c.rgb.b ≤ 255 ∧
    c.hsl = roundedHsl c.rgb.r c.rgb.g c.rgb.b := by
  obtain ⟨h1, h2, h3, h4, h5, h6, h7⟩ := parseColor_shape s c h
  obtain ⟨b1, b2, b3, b4, b5, b6⟩ := roundedHsl_bounds c.rgb.r c.rgb.g c.rgb.b h1 h2 h3 h4 h5 h6
  rw [h7]
  exact ⟨b1, b2, b3, b4, b5, b6, h1, h2, h3, h4, h5, h6, rfl⟩

/-- Witness for C7 at the navy constant. -/
theorem claim_C7_witness :
    0 ≤ (parseColorD "#1e3a8a").hsl.h ∧ (parseColorD "#1e3a8a").hsl.h ≤ 360 ∧
    0 ≤ (parseColorD "#1e3a8a").hsl.s ∧ (parseColorD "#1e3a8a").hsl.s ≤ 100 :=
  have h := claim_C7 "#1e3a8a" (parseColorD "#1e3a8a") (by decide)
  ⟨h.1, h.2.1, h.2.2.1, h.2.2.2.1⟩

/-! ### Bridging the executable `Q` arithmetic to `ℚ` -/

theorem Q.toRat_mk (n d : ℤ) : (⟨n, d⟩ : Q).toRat = (n : ℚ) / (d : ℚ) := rfl

theorem Q.toRat_ofInt (z : ℤ) : (Q.ofInt z).toRat = (z : ℚ) := by
  simp [Q.ofInt, Q.toRat]

theorem Q.toRat_add (a b : Q) (ha : a.d ≠ 0) (hb : b.d ≠ 0) :
    (a.add b).toRat = a.toRat + b.toRat := by
  have ha' : (a.d : ℚ) ≠ 0 := Int.cast_ne_zero.mpr ha
  have hb' : (b.d : ℚ) ≠ 0 := Int.cast_ne_zero.mpr hb
  simp only [Q.add, Q.toRat]
  push_cast
  field_simp
  try ring

theorem Q.toRat_sub (a b : Q) (ha : a.d ≠ 0) (hb : b.d ≠ 0) :
    (a.sub b).toRat = a.toRat - b.toRat := by
  have ha' : (a.d : ℚ) ≠ 0 := Int.cast_ne_zero.mpr ha
  have hb' : (b.d : ℚ) ≠ 0 := Int.cast_ne_zero.mpr hb
  simp only [Q.sub, Q.toRat]
  push_cast
  field_simp
  try ring

theorem Q.toRat_mul (a b : Q) : (a.mul b).toRat = a.toRat * b.toRat := by
  simp only [Q.mul, Q.toRat]
  push_cast
  rw [div_mul_div_comm]

theorem Q.toRat_divInt (a : Q) (k : ℤ) : (a.divInt k).toRat = a.toRat / (k : ℚ) := by
  simp only [Q.divInt, Q.toRat]
  push_cast
  rw [div_div]

theorem Q.blt_iff (a b : Q) (ha : 0 < a.d) (hb : 0 < b.d) :
    Q.blt a b = true ↔ a.toRat < b.toRat := by
  have ha' : (0 : ℚ) < (a.d : ℚ) := Int.cast_pos.mpr ha
  have hb' : (0 : ℚ) < (b.d : ℚ) := Int.cast_pos.mpr hb
  simp only [Q.blt, Q.toRat, decide_eq_true_eq]
  rw [div_lt_div_iff ha' hb']
  constructor
  · intro h
    exact_mod_cast h
  · intro h
    exact_mod_cast h

theorem floor_intCast_div_int (n d : ℤ) (hd : 0 < d) : ⌊((n : ℚ) / (d : ℚ))⌋ = n / d := by
  have h1 : ((d.toNat : ℕ) : ℤ) = d := Int.toNat_of_nonneg hd.le
  have h2 : ((d.toNat : ℕ) : ℚ) = (d : ℚ) := by exact_mod_cast congrArg (fun z : ℤ => (z : ℚ)) h1
  rw [← h2, Rat.floor_intCast_div_natCast n d.toNat, h1]

theorem Q.jsRound_toRat (a : Q) (ha : 0 < a.d) : a.jsRound = ⌊a.toRat + 1 / 2⌋ := by
  have ha' : (a.d : ℚ) ≠ 0 := Int.cast_ne_zero.mpr (by omega)
  have hval : a.toRat + 1 / 2 = ((2 * a.n + a.d : ℤ) : ℚ) / ((2 * a.d : ℤ) : ℚ) := by
    simp only [Q.toRat]
    push_cast
    field_simp
    ring
  rw [hval, floor_intCast_div_int _ _ (by omega)]
  rfl

theorem Q.min1_toRat (a : Q) (ha : 0 < a.d) : (Q.min1 a).toRat = min 1 a.toRat := by
  unfold Q.min1
  split_ifs with h
  · rw [Q.toRat_ofInt]
    have := (Q.blt_iff (Q.ofInt 1) a (by simp [Q.ofInt]) ha).mp h
    rw [Q.toRat_ofInt] at this
    exact (min_eq_left this.le).symm
  · have : ¬ ((1 : ℚ) < a.toRat) := by
      intro hlt
      exact h ((Q.blt_iff (Q.ofInt 1) a (by simp [Q.ofInt]) ha).mpr (by rwa [Q.toRat_ofInt]))
    exact (min_eq_right (not_lt.mp this)).symm

theorem Q.min1_dpos (a : Q) (ha : 0 < a.d) : 0 < (Q.min1 a).d := by
  unfold Q.min1
  split_ifs
  · simp [Q.ofInt]
  · exact ha

/-! ### The hue hat function: range and plateau analysis -/

theorem wrapRat_id (w : ℚ) (h0 : 0 ≤ w) (h1 : w ≤ 1) : wrapRat w = w := by
  simp only [wrapRat]
  rw [if_neg (not_lt.mpr h0)]
  exact if_neg (not_lt.mpr h1)

theorem wrapRat_up (w : ℚ) (h : w < 0) (h2 : w + 1 ≤ 1) : wrapRat w = w + 1 := by
  simp only [wrapRat]
  rw [if_pos h]
  exact if_neg (not_lt.mpr h2)

theorem wrapRat_down (w : ℚ) (h0 : 0 ≤ w) (h : 1 < w) : wrapRat w = w - 1 := by
  simp only [wrapRat]
  rw [if_neg (not_lt.mpr h0)]
  exact if_pos h

theorem wrapRat_nonneg (w : ℚ) (h : -1 ≤ w) : 0 ≤ wrapRat w := by
  simp only [wrapRat]
  split_ifs <;> linarith

theorem chanRat_hi (t1 t2 w : ℚ) (ha : 1 ≤ 6 * w) (hb : 2 * w < 1) : chanRat t1 t2 w = t2 := by
  unfold chanRat
  rw [if_neg (not_lt.mpr ha), if_pos hb]

theorem chanRat_lo (t1 t2 w : ℚ) (h : 2 ≤ 3 * w) : chanRat t1 t2 w = t1 := by
  unfold chanRat
  rw [if_neg (by linarith), if_neg (by linarith), if_neg (not_lt.mpr h)]

theorem chanRat_mem (t1 t2 w : ℚ) (h12 : t1 ≤ t2) (hw : 0 ≤ w) :
    t1 ≤ chanRat t1 t2 w ∧ chanRat t1 t2 w ≤ t2 := by
  unfold chanRat
  split_ifs with b1 b2 b3 <;> constructor <;> nlinarith

/-- Among the three channel offsets (spaced one third apart) exactly one
lands on the upper plateau of the hat function and one on the lower
plateau: some channel equals `t2` and some equals `t1`. -/
theorem threeChanAttains (t1 t2 hp : ℚ) (h0 : 0 ≤ hp) (h1 : hp < 1) :
    (chanRat t1 t2 (wrapRat (hp + 1 / 3)) = t2 ∨ chanRat t1 t2 (wrapRat hp) = t2 ∨
     chanRat t1 t2 (wrapRat (hp - 1 / 3)) = t2) ∧
    (chanRat t1 t2 (wrapRat (hp + 1 / 3)) = t1 ∨ chanRat t1 t2 (wrapRat hp) = t1 ∨
     chanRat t1 t2 (wrapRat (hp - 1 / 3)) = t1) := by
  rcases lt_or_le hp (1 / 6) with c1 | c1
  · refine ⟨Or.inl ?_, Or.inr (Or.inr ?_)⟩
    · rw [wrapRat_id _ (by linarith) (by linarith)]
      exact chanRat_hi _ _ _ (by linarith) (by linarith)
    · rw [wrapRat_up _ (by linarith) (by linarith)]
      exact chanRat_lo _ _ _ (by linarith)
  rcases lt_or_le hp (1 / 3) with c2 | c2
  · refine ⟨Or.inr (Or.inl ?_), Or.inr (Or.inr ?_)⟩
    · rw [wrapRat_id _ (by linarith) (by linarith)]
      exact chanRat_hi _ _ _ (by linarith) (by linarith)
    · rw [wrapRat_up _ (by linarith) (by linarith)]
      exact chanRat_lo _ _ _ (by linarith)
  rcases lt_or_le hp (1 / 2) with c3 | c3
  · refine ⟨Or.inr (Or.inl ?_), Or.inl ?_⟩
    · rw [wrapRat_id _ (by linarith) (by linarith)]
      exact chanRat_hi _ _ _ (by linarith) (by linarith)
    · rw [wrapRat_id _ (by linarith) (by linarith)]
      exact chanRat_lo _ _ _ (by linarith)
  rcases lt_or_le hp (2 / 3) with c4 | c4
  · refine ⟨Or.inr (Or.inr ?_), Or.inl ?_⟩
    · rw [wrapRat_id _ (by linarith) (by linarith)]
      exact chanRat_hi _ _ _ (by linarith) (by linarith)
    · rw [wrapRat_id _ (by linarith) (by linarith)]
      exact chanRat_lo _ _ _ (by linarith)
  rcases lt_or_le hp (5 / 6) with c5 | c5
  · refine ⟨Or.inr (Or.inr ?_), Or.inr (Or.inl ?_)⟩
    · rw [wrapRat_id _ (by linarith) (by linarith)]
      exact chanRat_hi _ _ _ (by linarith) (by linarith)
    · rw [wrapRat_id _ (by linarith) (by linarith)]
      exact chanRat_lo _ _ _ (by linarith)
  · refine ⟨Or.inl ?_, Or.inr (Or.inl ?_)⟩
    · rw [wrapRat_down _ (by linarith) (by linarith)]
      exact chanRat_hi _ _ _ (by linarith) (by linarith)
    · rw [wrapRat_id _ (by linarith) (by linarith)]
      exact chanRat_lo _ _ _ (by linarith)

/-! ### Slot lightness: quantization keeps the table value exactly -/

theorem jsRoundInt_eq_of_near (S p : ℤ) (h1 : (510 * p : ℚ) - 100 ≤ 100 * S)
    (h2 : (100 * S : ℚ) ≤ 510 * p + 100) : jsRoundInt (100 * S) 510 = p := by
  have h1' : 510 * p - 100 ≤ 100 * S := by exact_mod_cast h1
  have h2' : 100 * S ≤ 510 * p + 100 := by exact_mod_cast h2
  show (2 * (100 * S) + 510) / (2 * 510) = p
  omega

theorem clampFloor_id (x : ℚ) (h0 : 0 ≤ x) (h1 : x ≤ 255) :
    clampChan ⌊x + 1 / 2⌋ = ⌊x + 1 / 2⌋ := by
  have hge : (0 : ℤ) ≤ ⌊x + 1 / 2⌋ := Int.le_floor.mpr (by push_cast; linarith)
  have hlt : ⌊x + 1 / 2⌋ < 256 := Int.floor_lt.mpr (by push_cast; linarith)
  unfold clampChan
  omega

theorem slotLight_core (t1 t2 hp : ℚ) (p : ℤ) (h12 : t1 ≤ t2) (h10 : 0 ≤ t1) (h21 : t2 ≤ 1)
    (hsum : t1 + t2 = (p : ℚ) / 100 * 2) (hp0 : 0 ≤ hp) (hp1 : hp < 1) :
    jsRoundInt (100 *
      ((clampChan ⌊255 * chanRat t1 t2 (wrapRat (hp + 1 / 3)) + 1 / 2⌋ ⊔
          (clampChan ⌊255 * chanRat t1 t2 (wrapRat hp) + 1 / 2⌋ ⊔
           clampChan ⌊255 * chanRat t1 t2 (wrapRat (hp - 1 / 3)) + 1 / 2⌋)) +
        (clampChan ⌊255 * chanRat t1 t2 (wrapRat (hp + 1 / 3)) + 1 / 2⌋ ⊓
          (clampChan ⌊255 * chanRat t1 t2 (wrapRat hp) + 1 / 2⌋ ⊓
           clampChan ⌊255 * chanRat t1 t2 (wrapRat (hp - 1 / 3)) + 1 / 2⌋)))) 510 = p := by
  have hm0 := chanRat_mem t1 t2 (wrapRat (hp + 1 / 3)) h12 (wrapRat_nonneg _ (by linarith))
  have hm1 := chanRat_mem t1 t2 (wrapRat hp) h12 (wrapRat_nonneg _ (by linarith))
  have hm2 := chanRat_mem t1 t2 (wrapRat (hp - 1 / 3)) h12 (wrapRat_nonneg _ (by linarith))
  have hcl0 := clampFloor_id (255 * chanRat t1 t2 (wrapRat (hp + 1 / 3)))
    (by nlinarith [hm0.1]) (by nlinarith [hm0.2])
  have hcl1 := clampFloor_id (255 * chanRat t1 t2 (wrapRat hp))
    (by nlinarith [hm1.1]) (by nlinarith [hm1.2])
  have hcl2 := clampFloor_id (255 * chanRat t1 t2 (wrapRat (hp - 1 / 3)))
    (by nlinarith [hm2.1]) (by nlinarith [hm2.2])
  rw [hcl0, hcl1, hcl2]
  have hattains := threeChanAttains t1 t2 hp hp0 hp1
  have hmono0 : ⌊255 * chanRat t1 t2 (wrapRat (hp + 1 / 3)) + 1 / 2⌋ ≤ ⌊255 * t2 + 1 / 2⌋ :=
    Int.floor_le_floor (by nlinarith [hm0.2])
  have hmono1 : ⌊255 * chanRat t1 t2 (wrapRat hp) + 1 / 2⌋ ≤ ⌊255 * t2 + 1 / 2⌋ :=
    Int.floor_le_floor (by nlinarith [hm1.2])
  have hmono2 : ⌊255 * chanRat t1 t2 (wrapRat (hp - 1 / 3)) + 1 / 2⌋ ≤ ⌊255 * t2 + 1 / 2⌋ :=
    Int.floor_le_floor (by nlinarith [hm2.2])
  have hlo0 : ⌊255 * t1 + 1 / 2⌋ ≤ ⌊255 * chanRat t1 t2 (wrapRat (hp + 1 / 3)) + 1 / 2⌋ :=
    Int.floor_le_floor (by nlinarith [hm0.1])
  have hlo1 : ⌊255 * t1 + 1 / 2⌋ ≤ ⌊255 * chanRat t1 t2 (wrapRat hp) + 1 / 2⌋ :=
    Int.floor_le_floor (by nlinarith [hm1.1])
  have hlo2 : ⌊255 * t1 + 1 / 2⌋ ≤ ⌊255 * chanRat t1 t2 (wrapRat (hp - 1 / 3)) + 1 / 2⌋ :=
    Int.floor_le_floor (by nlinarith [hm2.1])
  have hmax : (⌊255 * chanRat t1 t2 (wrapRat (hp + 1 / 3)) + 1 / 2⌋ ⊔
      (⌊255 * chanRat t1 t2 (wrapRat hp) + 1 / 2⌋ ⊔
       ⌊255 * chanRat t1 t2 (wrapRat (hp - 1 / 3)) + 1 / 2⌋)) = ⌊255 * t2 + 1 / 2⌋ := by
    apply le_antisymm (max_le hmono0 (max_le hmono1 hmono2))
    rcases hattains.1 with hv | hv | hv
    · exact le_trans (le_of_eq (by rw [hv])) (le_max_left _ _)
    · exact le_trans (le_of_eq (by rw [hv])) (le_trans (le_max_left _ _) (le_max_right _ _))
    · exact le_trans (le_of_eq (by rw [hv])) (le_trans (le_max_right _ _) (le_max_right _ _))
  have hmin : (⌊255 * chanRat t1 t2 (wrapRat (hp + 1 / 3)) + 1 / 2⌋ ⊓
      (⌊255 * chanRat t1 t2 (wrapRat hp) + 1 / 2⌋ ⊓
       ⌊255 * chanRat t1 t2 (wrapRat (hp - 1 / 3)) + 1 / 2⌋)) = ⌊255 * t1 + 1 / 2⌋ := by
    apply le_antisymm
    · rcases hattains.2 with hv | hv | hv
      · exact le_trans (min_le_left _ _) (le_of_eq (by rw [hv]))
      · exact le_trans (le_trans (min_le_right _ _) (min_le_left _ _)) (le_of_eq (by rw [hv]))
      · exact le_trans (le_trans (min_le_right _ _) (min_le_right _ _)) (le_of_eq (by rw [hv]))
    · exact le_min hlo0 (le_min hlo1 hlo2)
  rw [hmax, hmin]
  have hub2 : (⌊255 * t2 + 1 / 2⌋ : ℚ) ≤ 255 * t2 + 1 / 2 := Int.floor_le _
  have hub1 : (⌊255 * t1 + 1 / 2⌋ : ℚ) ≤ 255 * t1 + 1 / 2 := Int.floor_le _
  have hlb2 : 255 * t2 + 1 / 2 - 1 < (⌊255 * t2 + 1 / 2⌋ : ℚ) := Int.sub_one_lt_floor _
  have hlb1 : 255 * t1 + 1 / 2 - 1 < (⌊255 * t1 + 1 / 2⌋ : ℚ) := Int.sub_one_lt_floor _
  apply jsRoundInt_eq_of_near
  · push_cast
    nlinarith
  · push_cast
    nlinarith

/-! ### Bridging the executable hsl-to-rgb conversion to its mirror -/

theorem Q.add_d (a b : Q) : (a.add b).d = a.d * b.d := rfl

theorem Q.sub_d (a b : Q) : (a.sub b).d = a.d * b.d := rfl

theorem Q.mul_d (a b : Q) : (a.mul b).d = a.d * b.d := rfl

theorem Q.divInt_d (a : Q) (k : ℤ) : (a.divInt k).d = a.d * k := rfl

theorem Q.ofInt_d (z : ℤ) : (Q.ofInt z).d = 1 := rfl

theorem qWrap_dpos (w : Q) (hw : 0 < w.d) : 0 < (qWrap w).d := by
  simp only [qWrap]
  split_ifs <;> (try simp only [Q.add_d, Q.sub_d, Q.ofInt_d]) <;> omega

theorem qWrap_toRat (w : Q) (hw : 0 < w.d) : (qWrap w).toRat = wrapRat w.toRat := by
  have hne : w.d ≠ 0 := hw.ne'
  have h0 : (Q.blt w (Q.ofInt 0) = true) ↔ w.toRat < 0 := by
    rw [Q.blt_iff _ _ hw (by simp [Q.ofInt]), Q.toRat_ofInt]
    norm_num
  unfold qWrap wrapRat
  by_cases hneg : w.toRat < 0
  · rw [if_pos (h0.mpr hneg), if_pos hneg]
    have hsum : (w.add (Q.ofInt 1)).toRat = w.toRat + 1 := by
      rw [Q.toRat_add _ _ hne (by simp [Q.ofInt]), Q.toRat_ofInt]
      norm_num
    have hdsum : 0 < (w.add (Q.ofInt 1)).d := by simp [Q.add_d, Q.ofInt_d]; omega
    have h1 : (Q.blt (Q.ofInt 1) (w.add (Q.ofInt 1)) = true) ↔ 1 < w.toRat + 1 := by
      rw [Q.blt_iff _ _ (by simp [Q.ofInt]) hdsum, Q.toRat_ofInt, hsum]
      norm_num
    by_cases hgt : 1 < w.toRat + 1
    · rw [if_pos (h1.mpr hgt), if_pos hgt]
      rw [Q.toRat_sub _ _ (by simp [Q.add_d, Q.ofInt_d]; omega) (by simp [Q.ofInt]), hsum,
        Q.toRat_ofInt]
      norm_num
    · rw [if_neg (fun hh => hgt (h1.mp hh)), if_neg hgt]
      exact hsum
  · rw [if_neg (fun hh => hneg (h0.mp hh)), if_neg hneg]
    have h1 : (Q.blt (Q.ofInt 1) w = true) ↔ 1 < w.toRat := by
      rw [Q.blt_iff _ _ (by simp [Q.ofInt]) hw, Q.toRat_ofInt]
      norm_num
    by_cases hgt : 1 < w.toRat
    · rw [if_pos (h1.mpr hgt), if_pos hgt]
      rw [Q.toRat_sub _ _ hne (by simp [Q.ofInt]), Q.toRat_ofInt]
      norm_num
    · rw [if_neg (fun hh => hgt (h1.mp hh)), if_neg hgt]

theorem hslChan_dpos (t1 t2 w : Q) (h1 : 0 < t1.d) (h2 : 0 < t2.d) (hw : 0 < w.d) :
    0 < (hslChan t1 t2 w).d := by
  unfold hslChan
  split_ifs <;>
    (try simp only [Q.add_d, Q.sub_d, Q.mul_d, Q.ofInt_d]) <;>
    first
      | assumption
      | positivity

theorem hslChan_toRat (t1 t2 w : Q) (h1 : 0 < t1.d) (h2 : 0 < t2.d) (hw : 0 < w.d) :
    (hslChan t1 t2 w).toRat = chanRat t1.toRat t2.toRat w.toRat := by
  have hne1 : t1.d ≠ 0 := h1.ne'
  have hne2 : t2.d ≠ 0 := h2.ne'
  have hnew : w.d ≠ 0 := hw.ne'
  have hd6w : 0 < (Q.mul (Q.ofInt 6) w).d := by simp [Q.mul_d, Q.ofInt_d]; omega
  have hd2w : 0 < (Q.mul (Q.ofInt 2) w).d := by simp [Q.mul_d, Q.ofInt_d]; omega
  have hd3w : 0 < (Q.mul (Q.ofInt 3) w).d := by simp [Q.mul_d, Q.ofInt_d]; omega
  have hc1 : (Q.blt (Q.mul (Q.ofInt 6) w) (Q.ofInt 1) = true) ↔ 6 * w.toRat < 1 := by
    rw [Q.blt_iff _ _ hd6w (by simp [Q.ofInt]), Q.toRat_mul, Q.toRat_ofInt, Q.toRat_ofInt]
    norm_num
  have hc2 : (Q.blt (Q.mul (Q.ofInt 2) w) (Q.ofInt 1) = true) ↔ 2 * w.toRat < 1 := by
    rw [Q.blt_iff _ _ hd2w (by simp [Q.ofInt]), Q.toRat_mul, Q.toRat_ofInt, Q.toRat_ofInt]
    norm_num
  have hc3 : (Q.blt (Q.mul (Q.ofInt 3) w) (Q.ofInt 2) = true) ↔ 3 * w.toRat < 2 := by
    rw [Q.blt_iff _ _ hd3w (by simp [Q.ofInt]), Q.toRat_mul, Q.toRat_ofInt, Q.toRat_ofInt]
    norm_num
  unfold hslChan chanRat
  by_cases b1 : 6 * w.toRat < 1
  · rw [if_pos (hc1.mpr b1), if_pos b1]
    rw [Q.toRat_add _ _ hne1
        (by simp only [Q.mul_d, Q.sub_d, Q.ofInt_d]
            exact mul_ne_zero (mul_ne_zero (mul_ne_zero hne2 hne1) one_ne_zero) hnew),
      Q.toRat_mul, Q.toRat_mul, Q.toRat_sub _ _ hne2 hne1, Q.toRat_ofInt]
    push_cast
    ring
  · rw [if_neg (fun hh => b1 (hc1.mp hh)), if_neg b1]
    by_cases b2 : 2 * w.toRat < 1
    · rw [if_pos (hc2.mpr b2), if_pos b2]
    · rw [if_neg (fun hh => b2 (hc2.mp hh)), if_neg b2]
      by_cases b3 : 3 * w.toRat < 2
      · rw [if_pos (hc3.mpr b3), if_pos b3]
        rw [Q.toRat_add _ _ hne1
            (by simp only [Q.mul_d, Q.sub_d, Q.ofInt_d]
                exact mul_ne_zero
                  (mul_ne_zero (mul_ne_zero hne2 hne1) (mul_ne_zero (by norm_num) hnew))
                  one_ne_zero),
          Q.toRat_mul, Q.toRat_mul, Q.toRat_sub _ _ hne2 hne1,
          Q.toRat_sub _ _ (by norm_num) hnew, Q.toRat_mk 2 3, Q.toRat_ofInt]
        push_cast
        ring
      · rw [if_neg (fun hh => b3 (hc3.mp hh)), if_neg b3]

theorem channel_bridge (t1q t2q w : Q) (h1 : 0 < t1q.d) (h2 : 0 < t2q.d) (hw : 0 < w.d) :
    (Q.mul (hslChan t1q t2q (qWrap w)) (Q.ofInt 255)).toRat
      = 255 * chanRat t1q.toRat t2q.toRat (wrapRat w.toRat) := by
  rw [Q.toRat_mul, Q.toRat_ofInt, hslChan_toRat _ _ _ h1 h2 (qWrap_dpos w hw),
    qWrap_toRat w hw]
  push_cast
  ring

/-! ### Round-trip: parsing a rendered hex string recovers the channels -/

theorem clampChan_mem (z : ℤ) : 0 ≤ clampChan z ∧ clampChan z ≤ 255 := by
  unfold clampChan
  omega

theorem hexDigit_roundtrip : ∀ n : ℕ, n < 16 → hexDigitVal (toHexDigit n) = some n := by
  decide

theorem parseHexDigits_renderBytes (r g b : ℤ)
    (hr0 : 0 ≤ r) (hr1 : r ≤ 255) (hg0 : 0 ≤ g) (hg1 : g ≤ 255)
    (hb0 : 0 ≤ b) (hb1 : b ≤ 255) :
    parseHexDigits (byteHexChars r ++ (byteHexChars g ++ byteHexChars b))
      = some [r.toNat / 16, r.toNat % 16, g.toNat / 16, g.toNat % 16,
              b.toNat / 16, b.toNat % 16] := by
  have h1 : r.toNat / 16 < 16 := by omega
  have h2 : r.toNat % 16 < 16 := by omega
  have h3 : g.toNat / 16 < 16 := by omega
  have h4 : g.toNat % 16 < 16 := by omega
  have h5 : b.toNat / 16 < 16 := by omega
  have h6 : b.toNat % 16 < 16 := by omega
  simp only [byteHexChars, List.cons_append, List.nil_append, parseHexDigits,
    hexDigit_roundtrip _ h1, hexDigit_roundtrip _ h2, hexDigit_roundtrip _ h3,
    hexDigit_roundtrip _ h4, hexDigit_roundtrip _ h5, hexDigit_roundtrip _ h6]

theorem parseColorD_renderHex6 (r g b : ℤ)
    (hr0 : 0 ≤ r) (hr1 : r ≤ 255) (hg0 : 0 ≤ g) (hg1 : g ≤ 255)
    (hb0 : 0 ≤ b) (hb1 : b ≤ 255) :
    parseColorD (renderHex6 r g b) = colorOfRgb r g b := by
  have hd := parseHexDigits_renderBytes r g b hr0 hr1 hg0 hg1 hb0 hb1
  unfold parseColorD parseColor renderHex6
  split
  case h_1 rest hdata =>
    have hrest : rest = byteHexChars r ++ (byteHexChars g ++ byteHexChars b) := by
      have h' := hdata
      simp only [List.cons.injEq, List.append_assoc] at h'
      exact h'.2.symm
    subst hrest
    rw [hd]
    simp only [Option.getD_some]
    have e1 : (16 * ((r.toNat / 16 : ℕ) : ℤ) + ((r.toNat % 16 : ℕ) : ℤ)) = r := by
      push_cast
      omega
    have e2 : (16 * ((g.toNat / 16 : ℕ) : ℤ) + ((g.toNat % 16 : ℕ) : ℤ)) = g := by
      push_cast
      omega
    have e3 : (16 * ((b.toNat / 16 : ℕ) : ℤ) + ((b.toNat % 16 : ℕ) : ℤ)) = b := by
      push_cast
      omega
    rw [e1, e2, e3]
  case h_2 hne =>
    exact absurd rfl (hne _)

theorem parseColorD_rgb_bounds (sx : String) :
    0 ≤ (parseColorD sx).rgb.r ∧ (parseColorD sx).rgb.r ≤ 255 ∧
    0 ≤ (parseColorD sx).rgb.g ∧ (parseColorD sx).rgb.g ≤ 255 ∧
    0 ≤ (parseColorD sx).rgb.b ∧ (parseColorD sx).rgb.b ≤ 255 := by
  unfold parseColorD
  cases hp : parseColor sx with
  | none =>
    simp only [Option.getD_none]
    refine ⟨?_, ?_, ?_, ?_, ?_, ?_⟩ <;> decide
  | some c =>
    simp only [Option.getD_some]
    have h := parseColor_shape sx c hp
    exact ⟨h.1, h.2.1, h.2.2.1, h.2.2.2.1, h.2.2.2.2.1, h.2.2.2.2.2.1⟩

/-! ### Exact hue and saturation bounds of `rgb2hsl` -/

theorem rgb2hslExact_core (r g b : ℤ) (hr0 : 0 ≤ r) (hr1 : r ≤ 255) (hg0 : 0 ≤ g)
    (hg1 : g ≤ 255) (hb0 : 0 ≤ b) (hb1 : b ≤ 255) :
    0 < (rgb2hslExact r g b).1.d ∧ 0 ≤ (rgb2hslExact r g b).1.n ∧
      (rgb2hslExact r g b).1.n < 360 * (rgb2hslExact r g b).1.d ∧
      0 < (rgb2hslExact r g b).2.1.d ∧ 0 ≤ (rgb2hslExact r g b).2.1.n ∧
      (rgb2hslExact r g b).2.1.n ≤ (rgb2hslExact r g b).2.1.d := by
  simp only [rgb2hslExact]
  split_ifs <;> refine ⟨?_, ?_, ?_, ?_, ?_, ?_⟩ <;> (try dsimp only [Q.ofInt]) <;> omega

theorem rgb2hslExact_bounds (r g b : ℤ) (hr0 : 0 ≤ r) (hr1 : r ≤ 255) (hg0 : 0 ≤ g)
    (hg1 : g ≤ 255) (hb0 : 0 ≤ b) (hb1 : b ≤ 255) :
    0 < (rgb2hslExact r g b).1.d ∧ 0 < (rgb2hslExact r g b).2.1.d ∧
    0 ≤ (rgb2hslExact r g b).1.toRat ∧ (rgb2hslExact r g b).1.toRat < 360 ∧
    0 ≤ (rgb2hslExact r g b).2.1.toRat ∧ (rgb2hslExact r g b).2.1.toRat ≤ 1 := by
  obtain ⟨c1, c2, c3, c4, c5, c6⟩ := rgb2hslExact_core r g b hr0 hr1 hg0 hg1 hb0 hb1
  have hd1 : (0 : ℚ) < ((rgb2hslExact r g b).1.d : ℚ) := by exact_mod_cast c1
  have hd2 : (0 : ℚ) < ((rgb2hslExact r g b).2.1.d : ℚ) := by exact_mod_cast c4
  refine ⟨c1, c4, ?_, ?_, ?_, ?_⟩
  · exact div_nonneg (by exact_mod_cast c2) hd1.le
  · show ((rgb2hslExact r g b).1.n : ℚ) / ((rgb2hslExact r g b).1.d : ℚ) < 360
    rw [div_lt_iff hd1]
    exact_mod_cast c3
  · exact div_nonneg (by exact_mod_cast c5) hd2.le
  · show ((rgb2hslExact r g b).2.1.n : ℚ) / ((rgb2hslExact r g b).2.1.d : ℚ) ≤ 1
    rw [div_le_one hd2]
    exact_mod_cast c6

theorem rgb2hslExact_l (r g b : ℤ) :
    (rgb2hslExact r g b).2.2 = ⟨max r (max g b) + min r (min g b), 510⟩ := by
  simp only [rgb2hslExact]
  split_ifs <;> rfl

theorem roundedHsl_l (r g b : ℤ) :
    (roundedHsl r g b).l = jsRoundInt (100 * (max r (max g b) + min r (min g b))) 510 := by
  show Q.jsRound (Q.mul (Q.ofInt 100) (rgb2hslExact r g b).2.2) = _
  rw [rgb2hslExact_l]
  show (2 * (100 * (max r (max g b) + min r (min g b))) + 1 * 510).ediv (2 * (1 * 510))
      = (2 * (100 * (max r (max g b) + min r (min g b))) + 510).ediv (2 * 510)
  norm_num

/-! ### Bridging `hsl2rgb255` to its rational mirror -/

theorem hsl2rgb255_bridge (h s l : Q) (hh : 0 < h.d) (hs : 0 < s.d) (hl : 0 < l.d) :
    0 < (hsl2rgb255 h s l).1.d ∧ 0 < (hsl2rgb255 h s l).2.1.d ∧ 0 < (hsl2rgb255 h s l).2.2.d ∧
    (hsl2rgb255 h s l).1.toRat = (hslChannelsRat h.toRat s.toRat l.toRat).1 ∧
    (hsl2rgb255 h s l).2.1.toRat = (hslChannelsRat h.toRat s.toRat l.toRat).2.1 ∧
    (hsl2rgb255 h s l).2.2.toRat = (hslChannelsRat h.toRat s.toRat l.toRat).2.2 := by
  have hsne : s.d ≠ 0 := hs.ne'
  have hlne : l.d ≠ 0 := hl.ne'
  by_cases hz : s.n = 0
  · have hzr : s.toRat = 0 := by simp [Q.toRat, hz]
    simp only [hsl2rgb255, hslChannelsRat, if_pos hz, if_pos hzr]
    refine ⟨?_, ?_, ?_, ?_, ?_, ?_⟩ <;>
      first
        | (simp only [Q.mul_d, Q.ofInt_d]; positivity)
        | (rw [Q.toRat_mul, Q.toRat_ofInt]; norm_num)
  · have hzr : ¬ s.toRat = 0 := by
      intro hq
      rcases div_eq_zero_iff.mp hq with h' | h'
      · exact hz (by exact_mod_cast h')
      · exact hsne (by exact_mod_cast h')
    simp only [hsl2rgb255, hslChannelsRat, if_neg hz, if_neg hzr]
    set T2 : Q := if Q.blt l ⟨1, 2⟩ then Q.mul l (Q.add (Q.ofInt 1) s)
                  else Q.sub (Q.add l s) (Q.mul l s) with hT2def
    set T1 : Q := Q.sub (Q.mul (Q.ofInt 2) l) T2 with hT1def
    set t2r : ℚ := if l.toRat < 1 / 2 then l.toRat * (1 + s.toRat)
                   else l.toRat + s.toRat - l.toRat * s.toRat with ht2rdef
    set t1r : ℚ := 2 * l.toRat - t2r with ht1rdef
    have hhalf : (⟨1, 2⟩ : Q).toRat = 1 / 2 := by
      rw [Q.toRat_mk 1 2]
      norm_num
    have hT2d : 0 < T2.d := by
      rw [hT2def]
      split_ifs <;> simp only [Q.mul_d, Q.add_d, Q.sub_d, Q.ofInt_d] <;> positivity
    have hT1d : 0 < T1.d := by
      rw [hT1def]
      simp only [Q.sub_d, Q.mul_d, Q.ofInt_d]
      positivity
    have hT2r : T2.toRat = t2r := by
      rw [hT2def, ht2rdef]
      by_cases hb : l.toRat < 1 / 2
      · rw [if_pos ((Q.blt_iff l ⟨1, 2⟩ hl (by decide)).mpr (by rw [hhalf]; exact hb)),
          if_pos hb, Q.toRat_mul, Q.toRat_add _ _ (by decide) hsne, Q.toRat_ofInt]
        norm_num
      · have hnotlt : ¬ (Q.blt l ⟨1, 2⟩ = true) := by
          intro hcon
          exact hb (hhalf ▸ (Q.blt_iff l ⟨1, 2⟩ hl (by decide)).mp hcon)
        rw [if_neg hnotlt, if_neg hb,
          Q.toRat_sub _ _ (by simp only [Q.add_d]; exact mul_ne_zero hlne hsne)
            (by simp only [Q.mul_d]; exact mul_ne_zero hlne hsne),
          Q.toRat_add _ _ hlne hsne, Q.toRat_mul]
    have hT1r : T1.toRat = t1r := by
      rw [hT1def, ht1rdef,
        Q.toRat_sub _ _ (by simp only [Q.mul_d, Q.ofInt_d, one_mul]; exact hlne) hT2d.ne',
        Q.toRat_mul, Q.toRat_ofInt, hT2r]
      norm_num
    have hqd : 0 < (Q.divInt h 360).d := by
      simp only [Q.divInt_d]
      positivity
    have hqne : (Q.divInt h 360).d ≠ 0 := hqd.ne'
    have hqr : (Q.divInt h 360).toRat = h.toRat / 360 := by
      rw [Q.toRat_divInt]
      norm_num
    have hw1d : 0 < (Q.add (Q.divInt h 360) ⟨1, 3⟩).d := by
      simp only [Q.add_d, Q.divInt_d]
      show 0 < h.d * 360 * 3
      positivity
    have hw3d : 0 < (Q.sub (Q.divInt h 360) ⟨1, 3⟩).d := by
      simp only [Q.sub_d, Q.divInt_d]
      show 0 < h.d * 360 * 3
      positivity
    have hthird : (⟨1, 3⟩ : Q).toRat = 1 / 3 := by
      rw [Q.toRat_mk 1 3]
      norm_num
    have hw1r : (Q.add (Q.divInt h 360) ⟨1, 3⟩).toRat = h.toRat / 360 + 1 / 3 := by
      rw [Q.toRat_add _ _ hqne (by decide), hqr, hthird]
    have hw3r : (Q.sub (Q.divInt h 360) ⟨1, 3⟩).toRat = h.toRat / 360 - 1 / 3 := by
      rw [Q.toRat_sub _ _ hqne (by decide), hqr, hthird]
    refine ⟨?_, ?_, ?_, ?_, ?_, ?_⟩
    · simpa [Q.mul_d, Q.ofInt_d] using hslChan_dpos T1 T2 _ hT1d hT2d (qWrap_dpos _ hw1d)
    · simpa [Q.mul_d, Q.ofInt_d] using hslChan_dpos T1 T2 _ hT1d hT2d (qWrap_dpos _ hqd)
    · simpa [Q.mul_d, Q.ofInt_d] using hslChan_dpos T1 T2 _ hT1d hT2d (qWrap_dpos _ hw3d)
    · rw [channel_bridge T1 T2 _ hT1d hT2d hw1d, hT1r, hT2r, hw1r]
    · rw [channel_bridge T1 T2 _ hT1d hT2d hqd, hT1r, hT2r, hqr]
    · rw [channel_bridge T1 T2 _ hT1d hT2d hw3d, hT1r, hT2r, hw3r]

theorem chromaHslHex_toRat (h s l : Q) (hh : 0 < h.d) (hs : 0 < s.d) (hl : 0 < l.d) :
    chromaHslHex h s l = chromaHslHexRat h.toRat s.toRat l.toRat := by
  obtain ⟨d1, d2, d3, e1, e2, e3⟩ := hsl2rgb255_bridge h s l hh hs hl
  simp only [chromaHslHex, chromaHslHexRat, quantChan, quantChanRat]
  rw [Q.jsRound_toRat _ d1, Q.jsRound_toRat _ d2, Q.jsRound_toRat _ d3, e1, e2, e3]

/-! ### Every numbered shade slot carries exactly the table lightness -/

theorem slotHexRat_l (hr sr : ℚ) (p : ℤ) (hh0 : 0 ≤ hr) (hh1 : hr < 360)
    (hs0 : 0 ≤ sr) (hs1 : sr ≤ 1) (hp0 : 0 < p) (hp1 : p < 100) :
    (parseColorD (chromaHslHexRat hr sr ((p : ℚ) / 100))).hsl.l = p := by
  have hl0 : (0 : ℚ) < (p : ℚ) / 100 := by
    have : (0 : ℚ) < (p : ℚ) := by exact_mod_cast hp0
    positivity
  have hl1 : (p : ℚ) / 100 < 1 := by
    rw [div_lt_one (by norm_num)]
    exact_mod_cast hp1
  by_cases hz : sr = 0
  · simp only [chromaHslHexRat, hslChannelsRat, quantChanRat, if_pos hz]
    have hcl : clampChan ⌊((p : ℚ) / 100 * 255) + 1 / 2⌋ = ⌊((p : ℚ) / 100 * 255) + 1 / 2⌋ :=
      clampFloor_id _ (by positivity) (by nlinarith)
    rw [parseColorD_renderHex6 _ _ _ (clampChan_mem _).1 (clampChan_mem _).2
      (clampChan_mem _).1 (clampChan_mem _).2 (clampChan_mem _).1 (clampChan_mem _).2]
    show (roundedHsl _ _ _).l = p
    rw [roundedHsl_l]
    simp only [max_self, min_self]
    rw [hcl]
    have hv1 : (⌊((p : ℚ) / 100 * 255) + 1 / 2⌋ : ℚ) ≤ (p : ℚ) / 100 * 255 + 1 / 2 :=
      Int.floor_le _
    have hv2 : (p : ℚ) / 100 * 255 + 1 / 2 - 1 < (⌊((p : ℚ) / 100 * 255) + 1 / 2⌋ : ℚ) :=
      Int.sub_one_lt_floor _
    apply jsRoundInt_eq_of_near
    · push_cast
      linarith
    · push_cast
      linarith
  · simp only [chromaHslHexRat, hslChannelsRat, quantChanRat, if_neg hz]
    set t2r : ℚ := if (p : ℚ) / 100 < 1 / 2 then (p : ℚ) / 100 * (1 + sr)
                   else (p : ℚ) / 100 + sr - (p : ℚ) / 100 * sr with ht2rdef
    set t1r : ℚ := 2 * ((p : ℚ) / 100) - t2r with ht1rdef
    have ht2lo : (p : ℚ) / 100 * sr ≤ t2r ∧ t2r ≤ 1 ∧ (p : ℚ) / 100 * sr ≤ 2 * ((p : ℚ) / 100) - t2r + t2r := by
      constructor
      · rw [ht2rdef]
        split_ifs with hbr <;> nlinarith
      constructor
      · rw [ht2rdef]
        split_ifs with hbr <;> nlinarith
      · nlinarith
    have h12 : t1r ≤ t2r := by
      rw [ht1rdef, ht2rdef]
      split_ifs with hbr <;> nlinarith
    have h10 : 0 ≤ t1r := by
      rw [ht1rdef, ht2rdef]
      split_ifs with hbr <;> nlinarith
    have h21 : t2r ≤ 1 := ht2lo.2.1
    have hsum : t1r + t2r = (p : ℚ) / 100 * 2 := by
      rw [ht1rdef]
      ring
    have hp0' : 0 ≤ hr / 360 := by positivity
    have hp1' : hr / 360 < 1 := by
      rw [div_lt_one (by norm_num)]
      exact hh1
    rw [parseColorD_renderHex6 _ _ _ (clampChan_mem _).1 (clampChan_mem _).2
      (clampChan_mem _).1 (clampChan_mem _).2 (clampChan_mem _).1 (clampChan_mem _).2]
    show (roundedHsl _ _ _).l = p
    rw [roundedHsl_l]
    have hmx : ∀ x y : ℤ, max x y = x ⊔ y := fun _ _ => rfl
    have hmn : ∀ x y : ℤ, min x y = x ⊓ y := fun _ _ => rfl
    rw [hmx, hmx, hmn, hmn]
    exact slotLight_core t1r t2r (hr / 360) p h12 h10 h21 hsum hp0' hp1'

/-- `shadeSlot` factors through the exact rational hue, the capped
saturation product, and the table lightness. -/
theorem shadeSlot_factors (h s adjS : Q) (p : ℤ) (hh : 0 < h.d) (hs : 0 < s.d)
    (hadj : 0 < adjS.d) :
    shadeSlot h s adjS p
      = parseColorD (chromaHslHexRat h.toRat (min 1 (s.toRat * adjS.toRat)) ((p : ℚ) / 100)) := by
  have hmd : 0 < (Q.mul s adjS).d := by
    simp only [Q.mul_d]
    positivity
  unfold shadeSlot
  rw [chromaHslHex_toRat _ _ _ hh (Q.min1_dpos _ hmd) (by show (0 : ℤ) < 100; norm_num),
    Q.min1_toRat _ hmd, Q.toRat_mul, Q.toRat_mk p 100]
  norm_num

theorem shadeSlot_hsl_l (h s adjS : Q) (p : ℤ)
    (hh : 0 < h.d) (hs : 0 < s.d) (hadj : 0 < adjS.d)
    (hh0 : 0 ≤ h.toRat) (hh1 : h.toRat < 360)
    (hs0 : 0 ≤ s.toRat) (hadj0 : 0 ≤ adjS.toRat)
    (hp0 : 0 < p) (hp1 : p < 100) :
    (shadeSlot h s adjS p).hsl.l = p := by
  rw [shadeSlot_factors h s adjS p hh hs hadj]
  exact slotHexRat_l h.toRat (min 1 (s.toRat * adjS.toRat)) p hh0 hh1
    (le_min (by norm_num) (by positivity)) (min_le_left _ _) hp0 hp1

/-- Claim C3: for every input `Color`, the `ColorScale` produced by
`generateShadeScale` has strictly monotonically decreasing lightness
across the 11 shade slots:
`lightness(50) > lightness(100) > ... > lightness(900) > lightness(950)`
(the slot lightnesses are in fact the table constants
97, 93, 85, 70, 55, 45, 35, 25, 18, 12, 6 for every input). -/
theorem claim_C3 (c : Color) :
    (generateShadeScale c).s50.hsl.l > (generateShadeScale c).s100.hsl.l ∧
    (generateShadeScale c).s100.hsl.l > (generateShadeScale c).s200.hsl.l ∧
    (generateShadeScale c).s200.hsl.l > (generateShadeScale c).s300.hsl.l ∧
    (generateShadeScale c).s300.hsl.l > (generateShadeScale c).s400.hsl.l ∧
    (generateShadeScale c).s400.hsl.l > (generateShadeScale c).s500.hsl.l ∧
    (generateShadeScale c).s500.hsl.l > (generateShadeScale c).s600.hsl.l ∧
    (generateShadeScale c).s600.hsl.l > (generateShadeScale c).s700.hsl.l ∧
    (generateShadeScale c).s700.hsl.l > (generateShadeScale c).s800.hsl.l ∧
    (generateShadeScale c).s800.hsl.l > (generateShadeScale c).s900.hsl.l ∧
    (generateShadeScale c).s900.hsl.l > (generateShadeScale c).s950.hsl.l := by
  obtain ⟨hr0, hr1, hg0, hg1, hb0, hb1⟩ := parseColorD_rgb_bounds c.hex
  obtain ⟨d1, d2, hh0, hh1, hs0, hs1⟩ :=
    rgb2hslExact_bounds (parseColorD c.hex).rgb.r (parseColorD c.hex).rgb.g
      (parseColorD c.hex).rgb.b hr0 hr1 hg0 hg1 hb0 hb1
  have key : ∀ (adjS : Q) (p : ℤ), 0 < adjS.d → 0 ≤ adjS.toRat → 0 < p → p < 100 →
      (shadeSlot
        (rgb2hslExact (parseColorD c.hex).rgb.r (parseColorD c.hex).rgb.g
          (parseColorD c.hex).rgb.b).1
        (rgb2hslExact (parseColorD c.hex).rgb.r (parseColorD c.hex).rgb.g
          (parseColorD c.hex).rgb.b).2.1 adjS p).hsl.l = p :=
    fun adjS p ha1 ha2 hq1 hq2 =>
      shadeSlot_hsl_l _ _ _ _ d1 d2 ha1 hh0 hh1 hs0 ha2 hq1 hq2
  simp only [generateShadeScale]
  rw [key ⟨7, 10⟩ 97 (by decide) (by rw [Q.toRat_mk 7 10]; norm_num) (by norm_num) (by norm_num),
    key ⟨8, 10⟩ 93 (by decide) (by rw [Q.toRat_mk 8 10]; norm_num) (by norm_num) (by norm_num),
    key ⟨85, 100⟩ 85 (by decide) (by rw [Q.toRat_mk 85 100]; norm_num) (by norm_num) (by norm_num),
    key ⟨9, 10⟩ 70 (by decide) (by rw [Q.toRat_mk 9 10]; norm_num) (by norm_num) (by norm_num),
    key ⟨95, 100⟩ 55 (by decide) (by rw [Q.toRat_mk 95 100]; norm_num) (by norm_num) (by norm_num),
    key ⟨1, 1⟩ 45 (by decide) (by rw [Q.toRat_mk 1 1]; norm_num) (by norm_num) (by norm_num),
    key ⟨105, 100⟩ 35 (by decide) (by rw [Q.toRat_mk 105 100]; norm_num) (by norm_num) (by norm_num),
    key ⟨108, 100⟩ 25 (by decide) (by rw [Q.toRat_mk 108 100]; norm_num) (by norm_num) (by norm_num),
    key ⟨110, 100⟩ 18 (by decide) (by rw [Q.toRat_mk 110 100]; norm_num) (by norm_num) (by norm_num),
    key ⟨112, 100⟩ 12 (by decide) (by rw [Q.toRat_mk 112 100]; norm_num) (by norm_num) (by norm_num),
    key ⟨115, 100⟩ 6 (by decide) (by rw [Q.toRat_mk 115 100]; norm_num) (by norm_num) (by norm_num)]
  norm_num

/-! ### C10: the numbered shade slots ignore the base lightness -/

set_option maxRecDepth 40000 in
/-- Claim C10 as stated is false: the colors `#762d95` and `#8231a5` agree
on the rounded `hsl.h` (282) and `hsl.s` (54) records but differ in
`hsl.l` (38 vs 42), and their generated scales differ at the 300 slot
(`#c18ed7` vs `#c18dd8`): the slots are derived from the exact
(unrounded) hue and saturation recomputed from the hex, so equality of
the rounded `hsl` fields is not sufficient. -/
theorem claim_C10_counterexample :
    (parseColorD "#762d95").hsl.h = (parseColorD "#8231a5").hsl.h ∧
    (parseColorD "#762d95").hsl.s = (parseColorD "#8231a5").hsl.s ∧
    (parseColorD "#762d95").hsl.l ≠ (parseColorD "#8231a5").hsl.l ∧
    (generateShadeScale (parseColorD "#762d95")).s300.hex
      ≠ (generateShadeScale (parseColorD "#8231a5")).s300.hex := by
  decide

/-- Claim C10 (corrected): the 11 numbered shade slots (50..950) produced
by `generateShadeScale` depend only on the base color's exact hue and
saturation, never on its lightness — for any two input `Color`s whose
hexes re-parse to channels with equal exact hue and equal exact
saturation, the generated scales agree on every slot 50 through 950,
while the `base` slot just returns the respective input — because each
slot's lightness is taken from a fixed constant table rather than derived
from the input's lightness. -/
theorem claim_C10 (a b : Color)
    (hh : (rgb2hslExact (parseColorD a.hex).rgb.r (parseColorD a.hex).rgb.g
        (parseColorD a.hex).rgb.b).1.toRat
      = (rgb2hslExact (parseColorD b.hex).rgb.r (parseColorD b.hex).rgb.g
          (parseColorD b.hex).rgb.b).1.toRat)
    (hs : (rgb2hslExact (parseColorD a.hex).rgb.r (parseColorD a.hex).rgb.g
        (parseColorD a.hex).rgb.b).2.1.toRat
      = (rgb2hslExact (parseColorD b.hex).rgb.r (parseColorD b.hex).rgb.g
          (parseColorD b.hex).rgb.b).2.1.toRat) :
    (generateShadeScale a).s50 = (generateShadeScale b).s50 ∧
    (generateShadeScale a).s100 = (generateShadeScale b).s100 ∧
    (generateShadeScale a).s200 = (generateShadeScale b).s200 ∧
    (generateShadeScale a).s300 = (generateShadeScale b).s300 ∧
    (generateShadeScale a).s400 = (generateShadeScale b).s400 ∧
    (generateShadeScale a).s500 = (generateShadeScale b).s500 ∧
    (generateShadeScale a).s600 = (generateShadeScale b).s600 ∧
    (generateShadeScale a).s700 = (generateShadeScale b).s700 ∧
    (generateShadeScale a).s800 = (generateShadeScale b).s800 ∧
    (generateShadeScale a).s900 = (generateShadeScale b).s900 ∧
    (generateShadeScale a).s950 = (generateShadeScale b).s950 ∧
    (generateShadeScale a).base = a ∧ (generateShadeScale b).base = b := by
  obtain ⟨har0, har1, hag0, hag1, hab0, hab1⟩ := parseColorD_rgb_bounds a.hex
  obtain ⟨hbr0, hbr1, hbg0, hbg1, hbb0, hbb1⟩ := parseColorD_rgb_bounds b.hex
  obtain ⟨d1a, d2a, _, _, _, _⟩ :=
    rgb2hslExact_bounds (parseColorD a.hex).rgb.r (parseColorD a.hex).rgb.g
      (parseColorD a.hex).rgb.b har0 har1 hag0 hag1 hab0 hab1
  obtain ⟨d1b, d2b, _, _, _, _⟩ :=
    rgb2hslExact_bounds (parseColorD b.hex).rgb.r (parseColorD b.hex).rgb.g
      (parseColorD b.hex).rgb.b hbr0 hbr1 hbg0 hbg1 hbb0 hbb1
  have key : ∀ (adjS : Q) (p : ℤ), 0 < adjS.d →
      shadeSlot
        (rgb2hslExact (parseColorD a.hex).rgb.r (parseColorD a.hex).rgb.g
          (parseColorD a.hex).rgb.b).1
        (rgb2hslExact (parseColorD a.hex).rgb.r (parseColorD a.hex).rgb.g
          (parseColorD a.hex).rgb.b).2.1 adjS p
      = shadeSlot
          (rgb2hslExact (parseColorD b.hex).rgb.r (parseColorD b.hex).rgb.g
            (parseColorD b.hex).rgb.b).1
          (rgb2hslExact (parseColorD b.hex).rgb.r (parseColorD b.hex).rgb.g
            (parseColorD b.hex).rgb.b).2.1 adjS p := by
    intro adjS p hd
    rw [shadeSlot_factors _ _ _ _ d1a d2a hd, shadeSlot_factors _ _ _ _ d1b d2b hd, hh, hs]
  simp only [generateShadeScale]
  exact ⟨key ⟨7, 10⟩ 97 (by decide), key ⟨8, 10⟩ 93 (by decide),
    key ⟨85, 100⟩ 85 (by decide), key ⟨9, 10⟩ 70 (by decide),
    key ⟨95, 100⟩ 55 (by decide), key ⟨1, 1⟩ 45 (by decide),
    key ⟨105, 100⟩ 35 (by decide), key ⟨108, 100⟩ 25 (by decide),
    key ⟨110, 100⟩ 18 (by decide), key ⟨112, 100⟩ 12 (by decide),
    key ⟨115, 100⟩ 6 (by decide), by trivial, by trivial⟩

/-- Witness for C10 at `#ff0000` / `#800000`: full red and half red have
the same exact hue (0°) and the same exact saturation (1) but different
lightness records, and their 300 slots coincide. -/
theorem claim_C10_witness :
    ((rgb2hslExact (parseColorD (parseColorD "#ff0000").hex).rgb.r
        (parseColorD (parseColorD "#ff0000").hex).rgb.g
        (parseColorD (parseColorD "#ff0000").hex).rgb.b).1.toRat
      = (rgb2hslExact (parseColorD (parseColorD "#800000").hex).rgb.r
          (parseColorD (parseColorD "#800000").hex).rgb.g
          (parseColorD (parseColorD "#800000").hex).rgb.b).1.toRat) ∧
    ((rgb2hslExact (parseColorD (parseColorD "#ff0000").hex).rgb.r
        (parseColorD (parseColorD "#ff0000").hex).rgb.g
        (parseColorD (parseColorD "#ff0000").hex).rgb.b).2.1.toRat
      = (rgb2hslExact (parseColorD (parseColorD "#800000").hex).rgb.r
          (parseColorD (parseColorD "#800000").hex).rgb.g
          (parseColorD (parseColorD "#800000").hex).rgb.b).2.1.toRat) ∧
    (parseColorD "#ff0000").hsl.l ≠ (parseColorD "#800000").hsl.l ∧
    (generateShadeScale (parseColorD "#ff0000")).s300
      = (generateShadeScale (parseColorD "#800000")).s300 := by
  have e1 : (rgb2hslExact (parseColorD (parseColorD "#ff0000").hex).rgb.r
      (parseColorD (parseColorD "#ff0000").hex).rgb.g
      (parseColorD (parseColorD "#ff0000").hex).rgb.b).1 = ⟨0, 255⟩ := by decide
  have e2 : (rgb2hslExact (parseColorD (parseColorD "#ff0000").hex).rgb.r
      (parseColorD (parseColorD "#ff0000").hex).rgb.g
      (parseColorD (parseColorD "#ff0000").hex).rgb.b).2.1 = ⟨255, 255⟩ := by decide
  have e3 : (rgb2hslExact (parseColorD (parseColorD "#800000").hex).rgb.r
      (parseColorD (parseColorD "#800000").hex).rgb.g
      (parseColorD (parseColorD "#800000").hex).rgb.b).1 = ⟨0, 128⟩ := by decide
  have e4 : (rgb2hslExact (parseColorD (parseColorD "#800000").hex).rgb.r
      (parseColorD (parseColorD "#800000").hex).rgb.g
      (parseColorD (parseColorD "#800000").hex).rgb.b).2.1 = ⟨128, 128⟩ := by decide
  have hh : (rgb2hslExact (parseColorD (parseColorD "#ff0000").hex).rgb.r
      (parseColorD (parseColorD "#ff0000").hex).rgb.g
      (parseColorD (parseColorD "#ff0000").hex).rgb.b).1.toRat
      = (rgb2hslExact (parseColorD (parseColorD "#800000").hex).rgb.r
          (parseColorD (parseColorD "#800000").hex).rgb.g
          (parseColorD (parseColorD "#800000").hex).rgb.b).1.toRat := by
    rw [e1, e3, Q.toRat_mk 0 255, Q.toRat_mk 0 128]
    norm_num
  have hs : (rgb2hslExact (parseColorD (parseColorD "#ff0000").hex).rgb.r
      (parseColorD (parseColorD "#ff0000").hex).rgb.g
      (parseColorD (parseColorD "#ff0000").hex).rgb.b).2.1.toRat
      = (rgb2hslExact (parseColorD (parseColorD "#800000").hex).rgb.r
          (parseColorD (parseColorD "#800000").hex).rgb.g
          (parseColorD (parseColorD "#800000").hex).rgb.b).2.1.toRat := by
    rw [e2, e4, Q.toRat_mk 255 255, Q.toRat_mk 128 128]
    norm_num
  exact ⟨hh, hs, by decide,
    (claim_C10 (parseColorD "#ff0000") (parseColorD "#800000") hh hs).2.2.2.1⟩
